import Mathlib

/-!
# ARDOP framing layer (`transport/ardop/frame.go`)

A shallow embedding of the frame reader `readFrameOfType`, the control-frame
writer `writeCtrlFrame`, the `dFrame` accessors and the identity decoder
`parseIDFrame`, followed by theorems about them.

Conventions of the embedding:

* a byte is a `Nat` (streams and payloads are `List Nat`); a Go `string` is the
  list of its bytes; `'*' = 42`, `'c' = 99`, `'d' = 100`, `'\r' = 13`,
  `"C:" = [67, 58]`;
* `uint16` arithmetic is `Nat` arithmetic followed by `% 65536`;
* a `*bufio.Reader` is the list of the bytes it has not delivered yet plus a
  schedule of chunk sizes: `Read` may return fewer bytes than asked for (the
  contract of `bufio.Reader.Read`), and the schedule says how many each
  successive call returns; an exhausted schedule means every `Read` returns
  all it was asked for, as far as the stream goes;
* `crc16Sum` and `fmt.Sprintf` live outside `frame.go` and are parameters;
* the pattern `reID` is a list of literals and greedy class repetitions, matched
  by backtracking at the leftmost position where a match exists;
* a run-time panic (slice bounds out of range) is the outcome `Outcome.panic`.
-/

namespace Ardop

/-! ## Data model -/

/-- Error values that `frame.go` returns or passes on. -/
inductive Error where
  /-- The stream error `io.EOF`. -/
  | eof
  /-- The package-level value `ErrChecksumMismatch`. -/
  | ErrChecksumMismatch
  /-- The value built by `fmt.Errorf("Unexpected frame type %c", fType)`. -/
  | unexpectedFrameType (fType : Nat)
  /-- The error of a writer that stopped accepting bytes. -/
  | writeFailed
  /-- The value built by `errors.New("Unexpected frame type")` in `parseIDFrame`. -/
  | idUnexpectedFrameType
  /-- The value built by `errors.New("Unexpected ID format")`. -/
  | unexpectedIDFormat
  deriving DecidableEq, Repr

/-- The Go type `cmdFrame` (a string). -/
abbrev cmdFrame := List Nat

/-- The Go struct `dFrame`. -/
structure dFrame where
  dataType : List Nat
  data : List Nat
  deriving DecidableEq, Repr

/-- The values stored in the Go interface `frame`. -/
inductive frame where
  | cmd (f : cmdFrame)
  | data (f : dFrame)
  deriving DecidableEq, Repr

/-- What a call of `readFrameOfType` ends with: `(frame, nil)`, `(nil, err)` or
a run-time panic. -/
inductive Outcome where
  | ok (f : frame)
  | error (e : Error)
  | panic
  deriving DecidableEq, Repr

/-- The tag `"ARQ"`. -/
def tagARQ : List Nat := [65, 82, 81]
/-- The tag `"FEC"`. -/
def tagFEC : List Nat := [70, 69, 67]
/-- The tag `"ERR"`. -/
def tagERR : List Nat := [69, 82, 82]
/-- The tag `"IDF"`. -/
def tagIDF : List Nat := [73, 68, 70]

/-- `func (f dFrame) ARQFrame() bool`. -/
def dFrame.ARQFrame (f : dFrame) : Bool := f.dataType == tagARQ
/-- `func (f dFrame) FECFrame() bool`. -/
def dFrame.FECFrame (f : dFrame) : Bool := f.dataType == tagFEC
/-- `func (f dFrame) ErrFrame() bool`. -/
def dFrame.ErrFrame (f : dFrame) : Bool := f.dataType == tagERR
/-- `func (f dFrame) IDFrame() bool`. -/
def dFrame.IDFrame (f : dFrame) : Bool := f.dataType == tagIDF

/-! ## Streams -/

/-- A `*bufio.Reader` over a finite stream: `buf` is what has not been
delivered yet, `chunks` the sizes the successive `Read` calls are cut to. -/
structure Reader where
  buf : List Nat
  chunks : List Nat
  deriving DecidableEq, Repr

/-- A reader over `bytes` whose `Read` calls are never cut short. -/
def Reader.ofBytes (bytes : List Nat) : Reader := ⟨bytes, []⟩

/-- `(*bufio.Reader).ReadByte`: the next byte, or `io.EOF` at the end. -/
def Reader.ReadByte (r : Reader) : (Nat × Option Error) × Reader :=
  match r.buf with
  | [] => ((0, some .eof), r)
  | b :: rest => ((b, none), { r with buf := rest })

/-- The bytes of `s` up to and including the first `delim`, and what follows;
`none` when `s` holds no `delim`. -/
def splitDelim (delim : Nat) : List Nat → Option (List Nat × List Nat)
  | [] => none
  | b :: rest =>
    if b = delim then some ([b], rest)
    else match splitDelim delim rest with
      | none => none
      | some (line, tail) => some (b :: line, tail)

/-- `(*bufio.Reader).ReadBytes`: reads through the first `delim`; when the
stream ends first, returns what was read together with `io.EOF`. -/
def Reader.ReadBytes (r : Reader) (delim : Nat) : (List Nat × Option Error) × Reader :=
  match splitDelim delim r.buf with
  | some (line, tail) => ((line, none), { r with buf := tail })
  | none => ((r.buf, some .eof), { r with buf := [] })

/-- `(*bufio.Reader).Peek`: the next `n` bytes without consuming them; fewer
bytes and `io.EOF` when the stream is shorter. -/
def Reader.Peek (r : Reader) (n : Nat) : List Nat × Option Error :=
  if n ≤ r.buf.length then (r.buf.take n, none) else (r.buf, some .eof)

/-- How many bytes the next `Read` asked for `k` bytes returns: at most `k`, at
most what the stream holds, at most the head of the schedule, and at least one
when `k > 0` and the stream is not at its end. -/
def Reader.delivered (r : Reader) (k : Nat) : Nat :=
  match r.chunks with
  | [] => min k r.buf.length
  | c :: _ => min (min k r.buf.length) (max c 1)

/-- `(*bufio.Reader).Read` into a slice of length `k`: the bytes copied into
the slice (their number is Go's `n`) and the error. -/
def Reader.Read (r : Reader) (k : Nat) : (List Nat × Option Error) × Reader :=
  if r.buf = [] then (([], some .eof), r)
  else ((r.buf.take (r.delivered k), none),
        ⟨r.buf.drop (r.delivered k), r.chunks.tail⟩)

/-- `copy(dst[off:], src)`. -/
def copyAt (dst : List Nat) (off : Nat) (src : List Nat) : List Nat :=
  dst.take off ++ src.take (dst.length - off) ++ dst.drop (off + src.length)

/-- `binary.BigEndian.Uint16`. -/
def Uint16 (b : List Nat) : Nat := (b.getD 0 0 % 256) * 256 + b.getD 1 0 % 256

/-- The two bytes `binary.Write(w, binary.BigEndian, sum)` emits for a
`uint16`. -/
def putUint16 (sum : Nat) : List Nat := [sum / 256 % 256, sum % 256]

/-- An `io.Writer`: what it has been given so far, and how many more bytes it
accepts before failing (`none`: it accepts everything). -/
structure Writer where
  out : List Nat
  room : Option Nat
  deriving DecidableEq, Repr

/-- One `Write` call on the writer. -/
def Writer.Write (w : Writer) (p : List Nat) : Option Error × Writer :=
  match w.room with
  | none => (none, { w with out := w.out ++ p })
  | some k =>
    if p.length ≤ k then (none, ⟨w.out ++ p, some (k - p.length)⟩)
    else (some .writeFailed, ⟨w.out ++ p.take k, some 0⟩)

/-! ## `writeCtrlFrame` -/

/-- `writeCtrlFrame` (lines 32-47). `sprintf` is `fmt.Sprintf`. -/
def writeCtrlFrame {P : Type} (sprintf : List Nat → P → List Nat)
    (crc16Sum : List Nat → Nat) (isTCP : Bool) (w : Writer)
    (format : List Nat) (params : P) : Option Error × Writer :=
  let pfx : List Nat := if !isTCP then [67, 58] else []
  let payload := sprintf (format ++ [13]) params
  let (err, w1) := w.Write (pfx ++ payload)
  if !isTCP && err == none then
    let sum := crc16Sum payload % 65536
    w1.Write (putUint16 sum)
  else (err, w1)

/-! ## `readFrameOfType` -/

/-- The loop of lines 73-76: `for read < int(length) && err == nil`, each round
one `Read` into `data[read:]`. Returns the loop's `err`, the filled `data` and
the reader. It ends because a `Read` for at least one byte either fails or
returns at least one byte. -/
def readLoop (length : Nat) (read : Nat) (err : Option Error) (data : List Nat)
    (reader : Reader) : (Option Error × List Nat) × Reader :=
  if hc : read < length ∧ err = none then
    match hr : reader.Read (length - read) with
    | ((got, err1), reader1) =>
      readLoop length (read + got.length) err1 (copyAt data read got) reader1
  else ((err, data), reader)
termination_by (length - read) + (if err = none then 1 else 0)
decreasing_by
  simp_wf
  rw [if_pos hc.2]
  have hlt : read < length := hc.1
  unfold Reader.Read at hr
  by_cases hb : reader.buf = []
  · rw [if_pos hb] at hr
    have herr : err1 = some Error.eof := by
      have := congrArg (fun x => x.1.2) hr
      exact this.symm
    rw [herr]
    simp only [reduceCtorEq, if_false]
    omega
  · rw [if_neg hb] at hr
    have hgot : got = reader.buf.take (reader.delivered (length - read)) := by
      have := congrArg (fun x => x.1.1) hr
      exact this.symm
    have hlen : 0 < reader.buf.length := List.length_pos.mpr hb
    have hpos : 0 < got.length := by
      rw [hgot, List.length_take]
      unfold Reader.delivered
      split <;> omega
    split <;> omega

/-- Lines 95-103 of `readFrameOfType`: the frame built from `data`. The slice
expressions `data[:len(data)-1]`, `data[2:5]` and `data[5:]` panic when `data`
is too short for them. -/
def buildFrame (fType : Nat) (data : List Nat) : Outcome :=
  if fType = 99 then
    if 1 ≤ data.length then .ok (.cmd (data.take (data.length - 1))) else .panic
  else if fType = 100 then
    if 5 ≤ data.length then .ok (.data ⟨(data.take 5).drop 2, data.drop 5⟩) else .panic
  else .panic

/-- Lines 81-103 of `readFrameOfType`, what follows the first `switch`: the
check of the function-level `err`, the checksum of serial-like mode (one `Read`
into the two-byte `sumBytes` whose results are not looked at), and the frame. -/
def verifyFrame (crc16Sum : List Nat → Nat) (fType : Nat) (isTCP : Bool)
    (err : Option Error) (data : List Nat) (reader : Reader) : Outcome × Reader :=
  match err with
  | some e => (.error e, reader)
  | none =>
    if !isTCP then
      match reader.Read 2 with
      | ((got, _), reader1) =>
        let sumBytes := copyAt [0, 0] 0 got
        let crc := Uint16 sumBytes
        if crc16Sum data % 65536 ≠ crc then (.error .ErrChecksumMismatch, reader1)
        else (buildFrame fType data, reader1)
    else (buildFrame fType data, reader)

/-- `readFrameOfType` (lines 49-104). In the `case 'd'` branch the `err` that
`peeked, err := reader.Peek(2)` declares is local to the branch: the loop
assigns to that one, and line 81 tests the function-level `err`, which is `nil`
on this path. -/
def readFrameOfType (crc16Sum : List Nat → Nat) (fType : Nat) (reader : Reader)
    (isTCP : Bool) : Outcome × Reader :=
  if fType = 42 then
    match hb : reader.ReadByte with
    | ((_, some err), reader1) => (.error err, reader1)
    | ((fType1, none), reader1) =>
      match hd : reader1.ReadByte with
      | (_, reader2) => readFrameOfType crc16Sum fType1 reader2 isTCP
  else if fType = 99 then
    match reader.ReadBytes 13 with
    | ((data, err), reader1) => verifyFrame crc16Sum fType isTCP err data reader1
  else if fType = 100 then
    match reader.Peek 2 with
    | (_, some err) => (.error err, reader)
    | (peeked, none) =>
      let length := (Uint16 peeked + 2) % 65536
      let data := List.replicate length 0
      match readLoop length 0 none data reader with
      | ((_, data1), reader1) => verifyFrame crc16Sum fType isTCP none data1 reader1
  else (.error (.unexpectedFrameType fType), reader)
termination_by reader.buf.length
decreasing_by
  simp_wf
  unfold Reader.ReadByte at hb hd
  cases hbuf : reader.buf with
  | nil => rw [hbuf] at hb; simp at hb
  | cons b rest =>
    rw [hbuf] at hb
    simp only [Prod.mk.injEq, true_and] at hb
    obtain ⟨_, hr1⟩ := hb
    subst hr1
    simp only at hd
    cases rest with
    | nil =>
      simp only [Prod.mk.injEq] at hd
      rw [← hd.2]; simp
    | cons c rest2 =>
      simp only [Prod.mk.injEq] at hd
      rw [← hd.2]; simp; omega

/-- `fmt.Sprintf` on a format that holds no verb, called without arguments:
the rendered text is the format itself. -/
def plainSprintf (format : List Nat) (_ : Unit) : List Nat := format

/-- `fmt.Sprintf` called without arguments, for a format in which every `%` is
followed directly by its verb byte or by the end of the format (no flags, width,
precision or argument index): `%%` renders as `%`, a `%` that ends the format
as `%!(NOVERB)`, and `%` with any other verb `v`, for which no argument is
left, as `%!v(MISSING)`; all other bytes are copied. -/
def noArgSprintf : List Nat → Unit → List Nat
  | [], _ => []
  | [37], _ => [37, 33, 40, 78, 79, 86, 69, 82, 66, 41]
  | 37 :: 37 :: rest, u => 37 :: noArgSprintf rest u
  | 37 :: verb :: rest, u =>
    [37, 33, verb] ++ [40, 77, 73, 83, 83, 73, 78, 71, 41] ++ noArgSprintf rest u
  | b :: rest, u => b :: noArgSprintf rest u

/-- A checksum function for examples: the sum of the bytes. -/
def byteSum (bs : List Nat) : Nat := bs.sum

/-! ## `parseIDFrame` -/

/-- The class `\w` of Go's regexp syntax: `[0-9A-Za-z_]`. -/
def isWord (b : Nat) : Bool :=
  (48 ≤ b && b ≤ 57) || (65 ≤ b && b ≤ 90) || b == 95 || (97 ≤ b && b ≤ 122)

/-- The class `[:\s]`: a colon or one of `\t \n \f \r` and the space. -/
def isSep (b : Nat) : Bool :=
  b == 58 || b == 9 || b == 10 || b == 12 || b == 13 || b == 32

/-- The pieces a pattern such as `reID` is made of: a literal byte, or a greedy
repetition of a character class, at least `lo` times, inside a capturing group
or not. -/
inductive Item where
  | lit (c : Nat)
  | rep (cls : Nat → Bool) (lo : Nat) (capture : Bool)

/-- The pattern `(\w+)[:\s]*\[(\w+)\]` of line 107. -/
def reID : List Item :=
  [.rep isWord 1 true, .rep isSep 0 false, .lit 91, .rep isWord 1 true, .lit 93]

/-- The number of bytes at the head of `s` that lie in `cls`. -/
def runLength (cls : Nat → Bool) : List Nat → Nat
  | [] => 0
  | b :: rest => if cls b then runLength cls rest + 1 else 0

/-- The first of `f k, f (k-1), ..., f lo` that succeeds: a greedy repetition
tries the longest run first and gives bytes back one at a time. -/
def firstDown {α : Type} (f : Nat → Option α) (lo : Nat) : Nat → Option α
  | 0 => if lo = 0 then f 0 else none
  | k + 1 =>
    if k + 1 < lo then none
    else match f (k + 1) with
      | some r => some r
      | none => firstDown f lo k

/-- A match of the pattern at the head of `s`, found the way a backtracking
matcher finds it: the captured groups in order, and what follows the match. -/
def matchHere : List Item → List Nat → Option (List (List Nat) × List Nat)
  | [], s => some ([], s)
  | .lit c :: items, s =>
    match s with
    | [] => none
    | b :: rest => if b = c then matchHere items rest else none
  | .rep cls lo capture :: items, s =>
    firstDown (fun k =>
      match matchHere items (s.drop k) with
      | some (caps, rest) => some (if capture then s.take k :: caps else caps, rest)
      | none => none) lo (runLength cls s)

/-- `(*Regexp).FindSubmatch`: the leftmost match, as the slice holding the
whole match followed by the captured groups; the empty slice (`nil`) when
nothing matches. All classes and literals of `reID` are ASCII, so matching
byte by byte finds what matching rune by rune finds. -/
def FindSubmatch (items : List Item) : List Nat → List (List Nat)
  | [] =>
    match matchHere items [] with
    | some (caps, _) => [] :: caps
    | none => []
  | b :: rest =>
    match matchHere items (b :: rest) with
    | some (caps, tail) => (b :: rest).take ((b :: rest).length - tail.length) :: caps
    | none => FindSubmatch items rest

/-- `parseIDFrame` (lines 109-120): callsign, gridsquare and error. -/
def parseIDFrame (df : dFrame) : (List Nat × List Nat) × Option Error :=
  if !df.IDFrame then (([], []), some .idUnexpectedFrameType)
  else
    let submatches := FindSubmatch reID df.data
    if submatches.length ≠ 3 then (([], []), some .unexpectedIDFormat)
    else ((submatches.getD 1 [], submatches.getD 2 []), none)

/-! ## Single-bit changes -/

/-- The byte `b` with bit `k` flipped. -/
def flipBit (b k : Nat) : Nat :=
  if b / 2 ^ k % 2 = 1 then b - 2 ^ k else b + 2 ^ k

/-- The bytes `bs` with bit `k` of the byte at index `i` flipped. -/
def flipBitAt (bs : List Nat) (i k : Nat) : List Nat :=
  bs.set i (flipBit (bs.getD i 0) k)

/-! ## Bounded evaluation -/

/-- The loop of lines 73-76 run for at most `rounds` rounds: `none` when the
loop has not ended by then. -/
def readLoopFuel : Nat → Nat → Nat → Option Error → List Nat → Reader →
    Option ((Option Error × List Nat) × Reader)
  | rounds, length, read, err, data, reader =>
    if read < length ∧ err = none then
      match rounds with
      | 0 => none
      | rounds1 + 1 =>
        match reader.Read (length - read) with
        | ((got, err1), reader1) =>
          readLoopFuel rounds1 length (read + got.length) err1 (copyAt data read got) reader1
    else some ((err, data), reader)

/-- `readFrameOfType` run with at most `calls` calls of itself and at most
`rounds` rounds of its loop: `none` when that is not enough. -/
def readFrameOfTypeFuel (crc16Sum : List Nat → Nat) (rounds : Nat) (isTCP : Bool) :
    Nat → Nat → Reader → Option (Outcome × Reader)
  | calls, fType, reader =>
    if fType = 42 then
      match reader.ReadByte with
      | ((_, some err), reader1) => some (.error err, reader1)
      | ((fType1, none), reader1) =>
        match reader1.ReadByte with
        | (_, reader2) =>
          match calls with
          | 0 => none
          | calls1 + 1 => readFrameOfTypeFuel crc16Sum rounds isTCP calls1 fType1 reader2
    else if fType = 99 then
      match reader.ReadBytes 13 with
      | ((data, err), reader1) => some (verifyFrame crc16Sum fType isTCP err data reader1)
    else if fType = 100 then
      match reader.Peek 2 with
      | (_, some err) => some (.error err, reader)
      | (peeked, none) =>
        let length := (Uint16 peeked + 2) % 65536
        let data := List.replicate length 0
        match readLoopFuel rounds length 0 none data reader with
        | none => none
        | some ((_, data1), reader1) =>
          some (verifyFrame crc16Sum fType isTCP none data1 reader1)
    else some (.error (.unexpectedFrameType fType), reader)

/-- The stream that `n` nested escape markers put in front of `inner`: `n`
times the byte `*` followed by the separator `s`. -/
def nestedEscape (s : Nat) (inner : List Nat) : Nat → List Nat
  | 0 => inner
  | n + 1 => 42 :: s :: nestedEscape s inner n

/-! ## Lemmas on the stream operations -/

theorem splitDelim_append (delim : Nat) (text rest : List Nat) (h : delim ∉ text) :
    splitDelim delim (text ++ delim :: rest) = some (text ++ [delim], rest) := by
  induction text with
  | nil => simp [splitDelim]
  | cons b t ih =>
    have hb : b ≠ delim := fun e => h (e ▸ List.mem_cons_self _ _)
    have ht : delim ∉ t := fun m => h (List.mem_cons_of_mem _ m)
    simp [splitDelim, hb, ih ht]

theorem ReadBytes_line (text rest chunks : List Nat) (h : 13 ∉ text) :
    Reader.ReadBytes ⟨text ++ 13 :: rest, chunks⟩ 13
      = ((text ++ [13], none), ⟨rest, chunks⟩) := by
  simp [Reader.ReadBytes, splitDelim_append 13 text rest h]

theorem buildFrame_cmd (text : List Nat) :
    buildFrame 99 (text ++ [13]) = .ok (.cmd text) := by
  simp [buildFrame]

theorem readFrameOfType_cmd_tcp (crc16Sum : List Nat → Nat) (text rest chunks : List Nat)
    (h : 13 ∉ text) :
    readFrameOfType crc16Sum 99 ⟨text ++ 13 :: rest, chunks⟩ true
      = (.ok (.cmd text), ⟨rest, chunks⟩) := by
  rw [readFrameOfType]
  simp [ReadBytes_line text rest chunks h, verifyFrame, buildFrame_cmd]

theorem writeCtrlFrame_tcp_out {P : Type} (sprintf : List Nat → P → List Nat)
    (crc16Sum : List Nat → Nat) (w : Writer) (format : List Nat) (params : P)
    (hroom : w.room = none) :
    writeCtrlFrame sprintf crc16Sum true w format params
      = (none, ⟨w.out ++ sprintf (format ++ [13]) params, none⟩) := by
  simp [writeCtrlFrame, Writer.Write, hroom]

theorem copyAt_append (filled pad got : List Nat) (h : got.length ≤ pad.length) :
    copyAt (filled ++ pad) filled.length got = (filled ++ got) ++ pad.drop got.length := by
  unfold copyAt
  rw [List.take_left, List.drop_append]
  have : (filled ++ pad).length - filled.length = pad.length := by simp
  rw [this, List.take_of_length_le h]

theorem readLoop_step (length read : Nat) (data : List Nat) (reader : Reader)
    (hc : read < length) :
    readLoop length read none data reader
      = readLoop length (read + (reader.Read (length - read)).1.1.length)
          (reader.Read (length - read)).1.2
          (copyAt data read (reader.Read (length - read)).1.1)
          (reader.Read (length - read)).2 := by
  rw [readLoop, dif_pos ⟨hc, rfl⟩]

theorem readLoop_done (length read : Nat) (err : Option Error) (data : List Nat)
    (reader : Reader) (hc : ¬ (read < length ∧ err = none)) :
    readLoop length read err data reader = ((err, data), reader) := by
  rw [readLoop, dif_neg hc]

theorem delivered_pos (r : Reader) (k : Nat) (hk : 0 < k) (hb : r.buf ≠ []) :
    0 < r.delivered k ∧ r.delivered k ≤ k ∧ r.delivered k ≤ r.buf.length := by
  have hlen : 0 < r.buf.length := List.length_pos.mpr hb
  unfold Reader.delivered
  split <;> omega

theorem readLoop_spec (length : Nat) :
    ∀ (n read : Nat) (filled pad : List Nat) (reader : Reader),
      filled.length = read → pad.length = n → read + n = length →
      ∃ chunks1, (∀ c ∈ chunks1, c ∈ reader.chunks) ∧
        readLoop length read none (filled ++ pad) reader
          = ((if reader.buf.length < n then some Error.eof else none,
              filled ++ reader.buf.take n ++ pad.drop reader.buf.length),
             ⟨reader.buf.drop n, chunks1⟩) := by
  intro n
  induction n using Nat.strong_induction_on with
  | _ n ih =>
    intro read filled pad reader hf hp hl
    by_cases hn : n = 0
    · subst hn
      have hpad : pad = [] := List.length_eq_zero.mp hp
      subst hpad
      refine ⟨reader.chunks, fun _ h => h, ?_⟩
      rw [readLoop_done length read none _ reader (by omega)]
      simp
    · have hc : read < length := by omega
      have hk : length - read = n := by omega
      rw [readLoop_step length read _ reader hc, hk]
      by_cases hb : reader.buf = []
      · refine ⟨reader.chunks, fun _ h => h, ?_⟩
        have hR : reader.Read n = (([], some Error.eof), reader) := by
          simp [Reader.Read, hb]
        rw [hR]
        rw [readLoop_done length _ (some Error.eof) _ reader (by simp)]
        have hpos : 0 < n := Nat.pos_of_ne_zero hn
        cases reader with
        | mk buf chunks =>
          simp only at hb
          subst hb
          simp [copyAt, hpos, ← hf]
      · obtain ⟨hd0, hdk, hdb⟩ := delivered_pos reader n (Nat.pos_of_ne_zero hn) hb
        have hR : reader.Read n = ((reader.buf.take (reader.delivered n), none),
            ⟨reader.buf.drop (reader.delivered n), reader.chunks.tail⟩) := by
          simp [Reader.Read, hb]
        rw [hR]
        simp only
        generalize hdef : reader.delivered n = d at *
        have hgl : (reader.buf.take d).length = d := by
          rw [List.length_take]; omega
        rw [hgl, ← hf, copyAt_append filled pad _ (by rw [hgl]; omega), hgl]
        obtain ⟨chunks1, hsub, heq⟩ := ih (n - d) (by omega) (filled.length + d)
          (filled ++ reader.buf.take d) (pad.drop d)
          ⟨reader.buf.drop d, reader.chunks.tail⟩
          (by rw [List.length_append, hgl]) (by rw [List.length_drop]; omega) (by omega)
        refine ⟨chunks1, fun c hc1 => List.mem_of_mem_tail (hsub c hc1), ?_⟩
        rw [heq]
        simp only [List.length_drop, List.drop_drop]
        have e1 : (reader.buf.length - d < n - d) ↔ (reader.buf.length < n) := by omega
        have e2 : reader.buf.take d ++ (reader.buf.drop d).take (n - d) = reader.buf.take n := by
          have : n = d + (n - d) := by omega
          conv_rhs => rw [this, List.take_add]
        have e3 : d + (reader.buf.length - d) = reader.buf.length := by omega
        have e4 : d + (n - d) = n := by omega
        simp only [e1, List.append_assoc, e2]
        rw [e3, e4]

theorem Uint16_putUint16 (L : Nat) (rest : List Nat) :
    Uint16 ((putUint16 L ++ rest).take 2) = L % 65536 := by
  simp only [putUint16, Uint16, List.cons_append, List.nil_append, List.take_succ_cons,
    List.take_zero, List.getD_cons_zero, List.getD_cons_succ]
  omega

theorem readFrameOfType_data (crc16Sum : List Nat → Nat) (buf chunks : List Nat)
    (isTCP : Bool) (h2 : 2 ≤ buf.length) :
    ∃ chunks1, (∀ c ∈ chunks1, c ∈ chunks) ∧
      readFrameOfType crc16Sum 100 ⟨buf, chunks⟩ isTCP
        = verifyFrame crc16Sum 100 isTCP none
            (buf.take ((Uint16 (buf.take 2) + 2) % 65536)
              ++ List.replicate ((Uint16 (buf.take 2) + 2) % 65536 - buf.length) 0)
            ⟨buf.drop ((Uint16 (buf.take 2) + 2) % 65536), chunks1⟩ := by
  obtain ⟨chunks1, hsub, heq⟩ := readLoop_spec ((Uint16 (buf.take 2) + 2) % 65536)
    ((Uint16 (buf.take 2) + 2) % 65536) 0 []
    (List.replicate ((Uint16 (buf.take 2) + 2) % 65536) 0) ⟨buf, chunks⟩ rfl
    (List.length_replicate _ _) (Nat.zero_add _)
  refine ⟨chunks1, hsub, ?_⟩
  rw [readFrameOfType]
  simp only [Reader.Peek, if_pos h2]
  simp only [List.nil_append] at heq
  simp [heq]

theorem buildFrame_data (hdr tag payload : List Nat) (hh : hdr.length = 2) (ht : tag.length = 3) :
    buildFrame 100 (hdr ++ tag ++ payload) = .ok (.data ⟨tag, payload⟩) := by
  have h5 : (hdr ++ tag).length = 5 := by simp [hh, ht]
  have hlen : 5 ≤ (hdr ++ tag ++ payload).length := by
    rw [List.length_append, h5]; omega
  have e1 : (hdr ++ tag ++ payload).take 5 = hdr ++ tag := by
    rw [← h5, List.take_left]
  have e2 : (hdr ++ tag ++ payload).drop 5 = payload := by
    rw [← h5, List.drop_left]
  have e3 : (hdr ++ tag).drop 2 = tag := by
    rw [← hh, List.drop_left]
  simp only [buildFrame, if_pos hlen, e1, e2, e3]
  simp

theorem readFrameOfType_data_block (crc16Sum : List Nat → Nat) (L : Nat)
    (tail chunks : List Nat) (isTCP : Bool) (hL : L ≤ 65533) :
    ∃ chunks1, (∀ c ∈ chunks1, c ∈ chunks) ∧
      readFrameOfType crc16Sum 100 ⟨putUint16 L ++ tail, chunks⟩ isTCP
        = verifyFrame crc16Sum 100 isTCP none
            (putUint16 L ++ tail.take L ++ List.replicate (L - tail.length) 0)
            ⟨tail.drop L, chunks1⟩ := by
  obtain ⟨chunks1, hsub, heq⟩ := readFrameOfType_data crc16Sum (putUint16 L ++ tail) chunks
    isTCP (by simp [putUint16])
  refine ⟨chunks1, hsub, ?_⟩
  have hlen : (Uint16 ((putUint16 L ++ tail).take 2) + 2) % 65536 = (putUint16 L).length + L := by
    rw [Uint16_putUint16]; simp [putUint16]; omega
  rw [heq, hlen, List.take_append, List.drop_append, List.length_append]
  have e : (putUint16 L).length + L - ((putUint16 L).length + tail.length) = L - tail.length := by
    omega
  rw [e]

theorem Read_two (b1 b2 : Nat) (rest chunks : List Nat) (hfull : ∀ c ∈ chunks.head?, 2 ≤ c) :
    Reader.Read ⟨b1 :: b2 :: rest, chunks⟩ 2 = (([b1, b2], none), ⟨rest, chunks.tail⟩) := by
  have hd : Reader.delivered ⟨b1 :: b2 :: rest, chunks⟩ 2 = 2 := by
    cases chunks with
    | nil => simp [Reader.delivered]
    | cons c cs =>
      have hc : 2 ≤ c := hfull c (by simp)
      simp only [Reader.delivered, List.length_cons]
      omega
  simp [Reader.Read, hd]

theorem verifyFrame_serial (crc16Sum : List Nat → Nat) (fType : Nat) (data : List Nat)
    (b1 b2 : Nat) (rest chunks : List Nat) (hfull : ∀ c ∈ chunks.head?, 2 ≤ c) :
    verifyFrame crc16Sum fType false none data ⟨b1 :: b2 :: rest, chunks⟩
      = if crc16Sum data % 65536 ≠ Uint16 [b1, b2]
        then (.error .ErrChecksumMismatch, ⟨rest, chunks.tail⟩)
        else (buildFrame fType data, ⟨rest, chunks.tail⟩) := by
  simp [verifyFrame, Read_two b1 b2 rest chunks hfull, copyAt]

theorem verifyFrame_serial_eof (crc16Sum : List Nat → Nat) (fType : Nat) (data : List Nat)
    (chunks : List Nat) :
    verifyFrame crc16Sum fType false none data ⟨[], chunks⟩
      = if crc16Sum data % 65536 ≠ 0
        then (.error .ErrChecksumMismatch, ⟨[], chunks⟩)
        else (buildFrame fType data, ⟨[], chunks⟩) := by
  simp [verifyFrame, Reader.Read, copyAt, Uint16]

theorem verifyFrame_serial_one (crc16Sum : List Nat → Nat) (fType : Nat) (data : List Nat)
    (b : Nat) (chunks : List Nat) :
    verifyFrame crc16Sum fType false none data ⟨[b], chunks⟩
      = if crc16Sum data % 65536 ≠ Uint16 [b, 0]
        then (.error .ErrChecksumMismatch, ⟨[], chunks.tail⟩)
        else (buildFrame fType data, ⟨[], chunks.tail⟩) := by
  have hd : Reader.delivered ⟨[b], chunks⟩ 2 = 1 := by
    cases chunks with
    | nil => simp [Reader.delivered]
    | cons c cs =>
      simp only [Reader.delivered, List.length_cons, List.length_nil]
      omega
  simp [verifyFrame, Reader.Read, hd, copyAt]

theorem readFrameOfType_cmd (crc16Sum : List Nat → Nat) (text rest chunks : List Nat)
    (isTCP : Bool) (h : 13 ∉ text) :
    readFrameOfType crc16Sum 99 ⟨text ++ 13 :: rest, chunks⟩ isTCP
      = verifyFrame crc16Sum 99 isTCP none (text ++ [13]) ⟨rest, chunks⟩ := by
  rw [readFrameOfType]
  simp [ReadBytes_line text rest chunks h]

theorem readFrameOfType_data_serial_block (crc16Sum : List Nat → Nat)
    (tag payload chunks : List Nat) (b1 b2 : Nat)
    (htag : tag.length = 3) (hL : 3 + payload.length ≤ 65533)
    (hfull : ∀ c ∈ chunks, 2 ≤ c) :
    (readFrameOfType crc16Sum 100
        ⟨putUint16 (3 + payload.length) ++ tag ++ payload ++ [b1, b2], chunks⟩ false).1
      = if crc16Sum (putUint16 (3 + payload.length) ++ tag ++ payload) % 65536 ≠ Uint16 [b1, b2]
        then .error .ErrChecksumMismatch
        else .ok (.data ⟨tag, payload⟩) := by
  have hblk : (tag ++ payload).length = 3 + payload.length := by
    simp [htag]
  obtain ⟨chunks1, hsub, heq⟩ := readFrameOfType_data_block crc16Sum (3 + payload.length)
    (tag ++ payload ++ [b1, b2]) chunks false hL
  have e1 : (tag ++ payload ++ [b1, b2]).take (3 + payload.length) = tag ++ payload := by
    rw [← hblk, List.take_left]
  have e2 : (tag ++ payload ++ [b1, b2]).drop (3 + payload.length) = [b1, b2] := by
    rw [← hblk, List.drop_left]
  have e3 : 3 + payload.length - (tag ++ payload ++ [b1, b2]).length = 0 := by
    rw [List.length_append, hblk]; omega
  rw [e1, e2, e3, List.replicate_zero, List.append_nil, ← List.append_assoc,
    ← List.append_assoc] at heq
  have hfull1 : ∀ c ∈ chunks1.head?, 2 ≤ c := fun c hc =>
    hfull c (hsub c (List.mem_of_mem_head? hc))
  rw [heq, verifyFrame_serial crc16Sum 100 _ b1 b2 [] chunks1 hfull1,
    buildFrame_data (putUint16 (3 + payload.length)) tag payload rfl htag]
  split <;> rfl

theorem readFrameOfType_escape_step (crc16Sum : List Nat → Nat) (t s : Nat)
    (r chunks : List Nat) (isTCP : Bool) :
    readFrameOfType crc16Sum 42 ⟨t :: s :: r, chunks⟩ isTCP
      = readFrameOfType crc16Sum t ⟨r, chunks⟩ isTCP := by
  rw [readFrameOfType]
  simp [Reader.ReadByte]

theorem buildFrame_short (data : List Nat) (h : data.length < 5) :
    buildFrame 100 data = .panic := by
  unfold buildFrame
  rw [if_neg (by decide), if_pos rfl, if_neg (by omega)]

theorem splitDelim_none (delim : Nat) (s : List Nat) (h : delim ∉ s) :
    splitDelim delim s = none := by
  induction s with
  | nil => rfl
  | cons b t ih =>
    have hb : b ≠ delim := fun e => h (e ▸ List.mem_cons_self _ _)
    have ht : delim ∉ t := fun m => h (List.mem_cons_of_mem _ m)
    simp [splitDelim, hb, ih ht]

theorem writeCtrlFrame_serial_out {P : Type} (sprintf : List Nat → P → List Nat)
    (crc16Sum : List Nat → Nat) (out0 : List Nat) (format : List Nat) (params : P) :
    writeCtrlFrame sprintf crc16Sum false ⟨out0, none⟩ format params
      = (none, ⟨out0 ++ ([67, 58] ++ sprintf (format ++ [13]) params)
                ++ putUint16 (crc16Sum (sprintf (format ++ [13]) params) % 65536), none⟩) := by
  simp [writeCtrlFrame, Writer.Write]

theorem Uint16_pair (x : Nat) : Uint16 (putUint16 x) = x % 65536 := by
  simp only [putUint16, Uint16, List.getD_cons_zero, List.getD_cons_succ]
  omega

theorem length_flipBitAt (bs : List Nat) (i k : Nat) :
    (flipBitAt bs i k).length = bs.length := by
  simp [flipBitAt]

theorem flipBitAt_append_left (a b : List Nat) (i k : Nat) (hi : i < a.length) :
    flipBitAt (a ++ b) i k = flipBitAt a i k ++ b := by
  induction a generalizing i with
  | nil => simp at hi
  | cons x xs ih =>
    cases i with
    | zero => simp [flipBitAt]
    | succ j =>
      have hj : j < xs.length := by simpa using hi
      have := ih j hj
      simp only [flipBitAt, List.cons_append, List.getD_cons_succ, List.set_cons_succ] at this ⊢
      rw [this]

theorem flipBitAt_append_right (a b : List Nat) (i k : Nat) :
    flipBitAt (a ++ b) (a.length + i) k = a ++ flipBitAt b i k := by
  induction a with
  | nil => simp
  | cons x xs ih =>
    have e : (x :: xs).length + i = (xs.length + i) + 1 := by simp; omega
    rw [e]
    simp only [flipBitAt, List.cons_append, List.getD_cons_succ, List.set_cons_succ] at ih ⊢
    rw [ih]

theorem flipBit_ne (b k : Nat) (hk : k < 8) :
    (flipBit b k = b + 2 ^ k ∨ (2 ^ k ≤ b ∧ flipBit b k = b - 2 ^ k)) ∧ 2 ^ k ≤ 128 := by
  have hp : 2 ^ k ≤ 2 ^ 7 := Nat.pow_le_pow_right (by decide) (by omega)
  refine ⟨?_, hp⟩
  unfold flipBit
  split
  · rename_i h
    right
    refine ⟨?_, rfl⟩
    by_contra hlt
    have : b / 2 ^ k = 0 := Nat.div_eq_of_lt (by omega)
    rw [this] at h
    simp at h
  · left; rfl

theorem byteSum_flipBitAt (a : List Nat) (i k : Nat) (hi : i < a.length) (hk : k < 8) :
    byteSum (flipBitAt a i k) % 65536 ≠ byteSum a % 65536 := by
  have key : ∀ (a : List Nat) (i : Nat), i < a.length →
      (byteSum (flipBitAt a i k) = byteSum a + 2 ^ k ∨
        (2 ^ k ≤ byteSum a ∧ byteSum (flipBitAt a i k) = byteSum a - 2 ^ k)) := by
    intro a
    induction a with
    | nil => intro i hi; simp at hi
    | cons x xs ih =>
      intro i hi
      cases i with
      | zero =>
        simp only [flipBitAt, byteSum, List.getD_cons_zero, List.set_cons_zero, List.sum_cons]
        rcases (flipBit_ne x k hk).1 with h | ⟨h1, h2⟩
        · left; rw [h]; omega
        · right; rw [h2]; omega
      | succ j =>
        have hj : j < xs.length := by simpa using hi
        have := ih j hj
        simp only [flipBitAt, byteSum, List.getD_cons_succ, List.set_cons_succ,
          List.sum_cons] at this ⊢
        rcases this with h | ⟨h1, h2⟩
        · left; rw [h]; omega
        · right; rw [h2]; omega
  have hp := (flipBit_ne 0 k hk).2
  have hpos : 0 < 2 ^ k := Nat.two_pow_pos k
  rcases key a i hi with h | ⟨h1, h2⟩
  · rw [h]; omega
  · rw [h2]; omega

theorem readFrameOfType_data_serial_body (crc16Sum : List Nat → Nat)
    (body chunks : List Nat) (b1 b2 : Nat) (hL : body.length ≤ 65533)
    (hfull : ∀ c ∈ chunks, 2 ≤ c) :
    (readFrameOfType crc16Sum 100
        ⟨putUint16 body.length ++ body ++ [b1, b2], chunks⟩ false).1
      = if crc16Sum (putUint16 body.length ++ body) % 65536 ≠ Uint16 [b1, b2]
        then .error .ErrChecksumMismatch
        else buildFrame 100 (putUint16 body.length ++ body) := by
  obtain ⟨chunks1, hsub, heq⟩ := readFrameOfType_data_block crc16Sum body.length
    (body ++ [b1, b2]) chunks false hL
  have e1 : (body ++ [b1, b2]).take body.length = body := List.take_left _ _
  have e2 : (body ++ [b1, b2]).drop body.length = [b1, b2] := List.drop_left _ _
  have e3 : body.length - (body ++ [b1, b2]).length = 0 := by
    rw [List.length_append]; omega
  rw [e1, e2, e3, List.replicate_zero, List.append_nil, ← List.append_assoc] at heq
  have hfull1 : ∀ c ∈ chunks1.head?, 2 ≤ c := fun c hc =>
    hfull c (hsub c (List.mem_of_mem_head? hc))
  rw [heq, verifyFrame_serial crc16Sum 100 _ b1 b2 [] chunks1 hfull1]
  split <;> rfl

theorem readFrameOfType_cmd_flipped (crc16Sum : List Nat → Nat) (text rest chunks : List Nat)
    (i k : Nat)
    (hdet : crc16Sum (flipBitAt (text ++ [13]) i k) % 65536 ≠ crc16Sum (text ++ [13]) % 65536)
    (hi : i < text.length) (hcr : 13 ∉ flipBitAt text i k)
    (hfull : ∀ c ∈ chunks.head?, 2 ≤ c) :
    readFrameOfType crc16Sum 99
        ⟨flipBitAt text i k ++ [13] ++ putUint16 (crc16Sum (text ++ [13]) % 65536) ++ rest,
          chunks⟩ false
      = (.error .ErrChecksumMismatch, ⟨rest, chunks.tail⟩) := by
  rw [flipBitAt_append_left text [13] i k hi] at hdet
  have hs : flipBitAt text i k ++ [13] ++ putUint16 (crc16Sum (text ++ [13]) % 65536) ++ rest
      = flipBitAt text i k ++ 13 :: ((crc16Sum (text ++ [13]) % 65536) / 256 % 256
          :: (crc16Sum (text ++ [13]) % 65536) % 256 :: rest) := by
    simp [putUint16]
  rw [hs, readFrameOfType_cmd crc16Sum _ _ chunks false hcr,
    verifyFrame_serial crc16Sum 99 _ _ _ rest chunks hfull]
  have hu := Uint16_pair (crc16Sum (text ++ [13]) % 65536)
  rw [putUint16, Nat.mod_mod] at hu
  rw [hu, if_pos hdet]

theorem readFrameOfType_data_flipped (crc16Sum : List Nat → Nat) (body chunks : List Nat)
    (j k : Nat)
    (hdet : crc16Sum (flipBitAt (putUint16 body.length ++ body) (2 + j) k) % 65536
      ≠ crc16Sum (putUint16 body.length ++ body) % 65536)
    (hL : body.length ≤ 65533) (hfull : ∀ c ∈ chunks, 2 ≤ c) :
    (readFrameOfType crc16Sum 100
        ⟨putUint16 body.length ++ flipBitAt body j k
          ++ putUint16 (crc16Sum (putUint16 body.length ++ body) % 65536), chunks⟩ false).1
      = .error .ErrChecksumMismatch := by
  have hr := flipBitAt_append_right (putUint16 body.length) body j k
  rw [show (putUint16 body.length).length = 2 from rfl] at hr
  rw [hr] at hdet
  have h := readFrameOfType_data_serial_body crc16Sum (flipBitAt body j k) chunks
    ((crc16Sum (putUint16 body.length ++ body) % 65536) / 256 % 256)
    ((crc16Sum (putUint16 body.length ++ body) % 65536) % 256)
    (by rw [length_flipBitAt]; exact hL) hfull
  rw [length_flipBitAt] at h
  have hu := Uint16_pair (crc16Sum (putUint16 body.length ++ body) % 65536)
  rw [putUint16, Nat.mod_mod] at hu
  rw [hu, if_pos hdet] at h
  exact h

theorem Read_eof_or_progress (reader : Reader) (k : Nat) (hk : 0 < k) :
    (reader.Read k).1.2 = none → 0 < (reader.Read k).1.1.length := by
  unfold Reader.Read
  by_cases hb : reader.buf = []
  · rw [if_pos hb]; intro h; cases h
  · rw [if_neg hb]
    intro _
    have := delivered_pos reader k hk hb
    simp only [List.length_take]
    omega

theorem readLoopFuel_enough :
    ∀ (rounds length read : Nat) (err : Option Error) (data : List Nat) (reader : Reader),
      (err = none → length - read ≤ rounds) →
      readLoopFuel rounds length read err data reader
        = some (readLoop length read err data reader) := by
  intro rounds
  induction rounds with
  | zero =>
    intro length read err data reader h
    have hc : ¬ (read < length ∧ err = none) := fun hc => by
      have := h hc.2; omega
    rw [readLoopFuel, if_neg hc, readLoop_done length read err data reader hc]
  | succ r ih =>
    intro length read err data reader h
    by_cases hc : read < length ∧ err = none
    · obtain ⟨hlt, he⟩ := hc
      subst he
      rw [readLoopFuel, if_pos ⟨hlt, rfl⟩, readLoop_step length read data reader hlt]
      simp only
      apply ih
      intro he1
      have hg := Read_eof_or_progress reader (length - read) (by omega) he1
      have hh := h rfl
      show length - (read + (reader.Read (length - read)).1.1.length) ≤ r
      omega
    · rw [readLoopFuel, if_neg hc, readLoop_done length read err data reader hc]

theorem readFrameOfTypeFuel_enough (crc16Sum : List Nat → Nat) (rounds : Nat) (isTCP : Bool)
    (hr : 65535 ≤ rounds) :
    ∀ (calls fType : Nat) (reader : Reader), reader.buf.length ≤ calls →
      readFrameOfTypeFuel crc16Sum rounds isTCP calls fType reader
        = some (readFrameOfType crc16Sum fType reader isTCP) := by
  intro calls
  induction calls with
  | zero =>
    intro fType reader h
    obtain ⟨buf, chunks⟩ := reader
    have hb : buf = [] := List.length_eq_zero.mp (Nat.le_zero.mp h)
    subst hb
    rw [readFrameOfTypeFuel, readFrameOfType]
    by_cases h1 : fType = 42
    · simp [h1, Reader.ReadByte]
    · by_cases h2 : fType = 99
      · simp [h2]
      · by_cases h3 : fType = 100
        · simp [h3, Reader.Peek]
        · simp [h1, h2, h3]
  | succ c ih =>
    intro fType reader h
    obtain ⟨buf, chunks⟩ := reader
    rw [readFrameOfTypeFuel, readFrameOfType]
    by_cases h1 : fType = 42
    · cases buf with
      | nil => simp [h1, Reader.ReadByte]
      | cons b rest =>
        cases rest with
        | nil =>
          simp only [h1, if_true, Reader.ReadByte]
          exact ih b ⟨[], chunks⟩ (Nat.zero_le _)
        | cons s rest2 =>
          simp only [h1, if_true, Reader.ReadByte]
          exact ih b ⟨rest2, chunks⟩ (by simp at h ⊢; omega)
    · by_cases h2 : fType = 99
      · simp [h2]
      · by_cases h3 : fType = 100
        · subst h3
          simp only [if_neg h1, if_neg h2, if_true]
          by_cases hp : 2 ≤ buf.length
          · simp only [Reader.Peek, if_pos hp]
            rw [readLoopFuel_enough rounds _ 0 none _ _ (fun _ => by omega)]
          · simp only [Reader.Peek, if_neg hp]
        · simp [h1, h2, h3]

theorem readFrameOfType_nested (crc16Sum : List Nat → Nat) (t s : Nat) (r chunks : List Nat)
    (isTCP : Bool) :
    ∀ n : Nat, readFrameOfType crc16Sum 42 ⟨nestedEscape s (t :: s :: r) n, chunks⟩ isTCP
      = readFrameOfType crc16Sum t ⟨r, chunks⟩ isTCP := by
  intro n
  induction n with
  | zero => exact readFrameOfType_escape_step crc16Sum t s r chunks isTCP
  | succ m ih =>
    rw [nestedEscape, readFrameOfType_escape_step]
    exact ih

theorem length_nestedEscape (s : Nat) (inner : List Nat) (n : Nat) :
    (nestedEscape s inner n).length = 2 * n + inner.length := by
  induction n with
  | zero => simp [nestedEscape]
  | succ m ih => simp [nestedEscape, ih]; omega

theorem runLength_append_stop (cls : Nat → Bool) (w rest : List Nat)
    (hw : ∀ b ∈ w, cls b = true) (hrest : runLength cls rest = 0) :
    runLength cls (w ++ rest) = w.length := by
  induction w with
  | nil => simpa using hrest
  | cons x xs ih =>
    have hx : cls x = true := hw x (List.mem_cons_self _ _)
    have := ih (fun b hb => hw b (List.mem_cons_of_mem _ hb))
    simp [runLength, hx, this]

theorem runLength_cons_stop (cls : Nat → Bool) (b : Nat) (rest : List Nat)
    (hb : cls b = false) : runLength cls (b :: rest) = 0 := by
  simp [runLength, hb]

theorem take_runLength (cls : Nat → Bool) :
    ∀ (s : List Nat) (j : Nat), j ≤ runLength cls s →
      j ≤ s.length ∧ ∀ b ∈ s.take j, cls b = true := by
  intro s
  induction s with
  | nil =>
    intro j hj
    simp only [runLength, Nat.le_zero] at hj
    subst hj
    simp
  | cons x xs ih =>
    intro j hj
    cases j with
    | zero => simp
    | succ i =>
      simp only [runLength] at hj
      by_cases hx : cls x = true
      · rw [if_pos hx] at hj
        obtain ⟨h1, h2⟩ := ih i (by omega)
        refine ⟨by simp; omega, ?_⟩
        intro b hb
        simp only [List.take_succ_cons, List.mem_cons] at hb
        rcases hb with rfl | hb
        · exact hx
        · exact h2 b hb
      · rw [if_neg hx] at hj
        omega

theorem firstDown_top {α : Type} (f : Nat → Option α) (lo k : Nat) (r : α)
    (hlo : lo ≤ k) (hf : f k = some r) : firstDown f lo k = some r := by
  cases k with
  | zero =>
    have : lo = 0 := by omega
    simp [firstDown, this, hf]
  | succ n =>
    rw [firstDown, if_neg (by omega), hf]

theorem firstDown_lt {α : Type} (f : Nat → Option α) (lo k : Nat) (h : k < lo) :
    firstDown f lo k = none := by
  cases k with
  | zero => rw [firstDown, if_neg (by omega)]
  | succ n => rw [firstDown, if_pos h]

theorem firstDown_some {α : Type} (f : Nat → Option α) (lo : Nat) (r : α) :
    ∀ k : Nat, firstDown f lo k = some r → ∃ j, lo ≤ j ∧ j ≤ k ∧ f j = some r := by
  intro k
  induction k with
  | zero =>
    intro h
    rw [firstDown] at h
    by_cases hlo : lo = 0
    · rw [if_pos hlo] at h
      exact ⟨0, by omega, Nat.le_refl _, h⟩
    · rw [if_neg hlo] at h
      cases h
  | succ n ih =>
    intro h
    rw [firstDown] at h
    by_cases hlt : n + 1 < lo
    · rw [if_pos hlt] at h
      cases h
    · rw [if_neg hlt] at h
      cases hf : f (n + 1) with
      | some r1 =>
        rw [hf] at h
        simp only [Option.some.injEq] at h
        subst h
        exact ⟨n + 1, by omega, Nat.le_refl _, hf⟩
      | none =>
        rw [hf] at h
        obtain ⟨j, h1, h2, h3⟩ := ih h
        exact ⟨j, h1, by omega, h3⟩

theorem matchHere_rep_top (cls : Nat → Bool) (lo : Nat) (capture : Bool) (items : List Item)
    (w rest tail : List Nat) (caps : List (List Nat))
    (hw : ∀ b ∈ w, cls b = true) (hrest : runLength cls rest = 0) (hlo : lo ≤ w.length)
    (hm : matchHere items rest = some (caps, tail)) :
    matchHere (.rep cls lo capture :: items) (w ++ rest)
      = some (if capture then w :: caps else caps, tail) := by
  rw [matchHere, runLength_append_stop cls w rest hw hrest]
  apply firstDown_top _ lo w.length _ hlo
  simp only [List.drop_left, List.take_left, hm]

theorem matchHere_rep_some (cls : Nat → Bool) (lo : Nat) (capture : Bool) (items : List Item)
    (s tail : List Nat) (caps : List (List Nat))
    (h : matchHere (.rep cls lo capture :: items) s = some (caps, tail)) :
    ∃ j caps1, lo ≤ j ∧ j ≤ s.length ∧ (∀ b ∈ s.take j, cls b = true) ∧
      matchHere items (s.drop j) = some (caps1, tail) ∧
      caps = if capture then s.take j :: caps1 else caps1 := by
  rw [matchHere] at h
  obtain ⟨j, h1, h2, h3⟩ := firstDown_some _ lo _ _ h
  obtain ⟨h4, h5⟩ := take_runLength cls s j h2
  cases hm : matchHere items (s.drop j) with
  | none => rw [hm] at h3; cases h3
  | some p =>
    obtain ⟨caps1, tail1⟩ := p
    rw [hm] at h3
    simp only [Option.some.injEq, Prod.mk.injEq] at h3
    obtain ⟨e1, e2⟩ := h3
    subst e2
    exact ⟨j, caps1, h1, h4, h5, hm, e1.symm⟩

theorem matchHere_lit_some (c : Nat) (items : List Item) (s : List Nat)
    (r : List (List Nat) × List Nat) (h : matchHere (.lit c :: items) s = some r) :
    ∃ rest, s = c :: rest ∧ matchHere items rest = some r := by
  cases s with
  | nil => rw [matchHere] at h; cases h
  | cons b rest =>
    rw [matchHere] at h
    by_cases hb : b = c
    · rw [if_pos hb] at h
      exact ⟨rest, by rw [hb], h⟩
    · rw [if_neg hb] at h
      cases h

theorem isWord_of_isSep (b : Nat) (h : isSep b = true) : isWord b = false := by
  simp only [isSep, Bool.or_eq_true, beq_iff_eq] at h
  rcases h with ((((h | h) | h) | h) | h) | h <;> subst h <;> decide

theorem matchHere_reID (c sep g suffix : List Nat) (hc : c ≠ []) (hg : g ≠ [])
    (hcw : ∀ b ∈ c, isWord b = true) (hsep : ∀ b ∈ sep, isSep b = true)
    (hgw : ∀ b ∈ g, isWord b = true) :
    matchHere reID (c ++ (sep ++ 91 :: (g ++ 93 :: suffix))) = some ([c, g], suffix) := by
  have h4 : matchHere [.lit 93] (93 :: suffix) = some ([], suffix) := by
    simp [matchHere]
  have h3 : matchHere [.rep isWord 1 true, .lit 93] (g ++ 93 :: suffix)
      = some ([g], suffix) := by
    have := matchHere_rep_top isWord 1 true [.lit 93] g (93 :: suffix) suffix [] hgw
      (runLength_cons_stop isWord 93 suffix (by decide))
      (List.length_pos.mpr hg) h4
    simpa using this
  have h2 : matchHere [.lit 91, .rep isWord 1 true, .lit 93] (91 :: (g ++ 93 :: suffix))
      = some ([g], suffix) := by
    rw [matchHere, if_pos rfl, h3]
  have h1 : matchHere [.rep isSep 0 false, .lit 91, .rep isWord 1 true, .lit 93]
      (sep ++ 91 :: (g ++ 93 :: suffix)) = some ([g], suffix) := by
    have := matchHere_rep_top isSep 0 false [.lit 91, .rep isWord 1 true, .lit 93] sep
      (91 :: (g ++ 93 :: suffix)) suffix [g] hsep
      (runLength_cons_stop isSep 91 _ (by decide)) (Nat.zero_le _) h2
    simpa using this
  have hstop : runLength isWord (sep ++ 91 :: (g ++ 93 :: suffix)) = 0 := by
    cases sep with
    | nil => exact runLength_cons_stop isWord 91 _ (by decide)
    | cons x xs =>
      exact runLength_cons_stop isWord x _ (isWord_of_isSep x (hsep x (List.mem_cons_self _ _)))
  have := matchHere_rep_top isWord 1 true [.rep isSep 0 false, .lit 91, .rep isWord 1 true, .lit 93]
    c (sep ++ 91 :: (g ++ 93 :: suffix)) suffix [g] hcw hstop (List.length_pos.mpr hc) h1
  simpa [reID] using this

theorem matchHere_reID_nonword (b : Nat) (rest : List Nat) (hb : isWord b = false) :
    matchHere reID (b :: rest) = none := by
  rw [reID, matchHere, runLength_cons_stop isWord b rest hb]
  exact firstDown_lt _ 1 0 (by decide)

theorem FindSubmatch_skip (pre s : List Nat) (hpre : ∀ b ∈ pre, isWord b = false) :
    FindSubmatch reID (pre ++ s) = FindSubmatch reID s := by
  induction pre with
  | nil => rfl
  | cons x xs ih =>
    have hx := hpre x (List.mem_cons_self _ _)
    rw [List.cons_append, FindSubmatch, matchHere_reID_nonword x (xs ++ s) hx]
    exact ih (fun b hb => hpre b (List.mem_cons_of_mem _ hb))

theorem FindSubmatch_of_match (items : List Item) (s tail : List Nat) (caps : List (List Nat))
    (hs : s ≠ []) (hm : matchHere items s = some (caps, tail)) :
    FindSubmatch items s = s.take (s.length - tail.length) :: caps := by
  cases s with
  | nil => exact absurd rfl hs
  | cons b rest => rw [FindSubmatch, hm]


theorem matchHere_reID_some (s tail : List Nat) (caps : List (List Nat))
    (h : matchHere reID s = some (caps, tail)) :
    ∃ w1 sp w2, s = w1 ++ sp ++ [91] ++ w2 ++ [93] ++ tail ∧ w1 ≠ [] ∧
      (∀ b ∈ w1, isWord b = true) ∧ (∀ b ∈ sp, isSep b = true) ∧ w2 ≠ [] ∧
      (∀ b ∈ w2, isWord b = true) := by
  rw [reID] at h
  obtain ⟨j1, caps1, hlo1, hlen1, hw1, hm1, -⟩ := matchHere_rep_some _ _ _ _ _ _ _ h
  obtain ⟨j2, caps2, -, -, hw2, hm2, -⟩ := matchHere_rep_some _ _ _ _ _ _ _ hm1
  obtain ⟨rest3, hs3, hm3⟩ := matchHere_lit_some _ _ _ _ hm2
  obtain ⟨j4, caps4, hlo4, hlen4, hw4, hm4, -⟩ := matchHere_rep_some _ _ _ _ _ _ _ hm3
  obtain ⟨rest5, hs5, hm5⟩ := matchHere_lit_some _ _ _ _ hm4
  rw [matchHere] at hm5
  simp only [Option.some.injEq, Prod.mk.injEq] at hm5
  obtain ⟨-, hr5⟩ := hm5
  subst hr5
  refine ⟨s.take j1, (s.drop j1).take j2, rest3.take j4, ?_, ?_, hw1, hw2, ?_, hw4⟩
  · have e1 : s = s.take j1 ++ s.drop j1 := (List.take_append_drop j1 s).symm
    have e2 : s.drop j1 = (s.drop j1).take j2 ++ (s.drop j1).drop j2 :=
      (List.take_append_drop j2 _).symm
    have e3 : rest3 = rest3.take j4 ++ rest3.drop j4 := (List.take_append_drop j4 _).symm
    rw [hs3] at e2
    rw [hs5] at e3
    calc s = s.take j1 ++ s.drop j1 := e1
      _ = s.take j1 ++ ((s.drop j1).take j2 ++ 91 :: rest3) := by rw [← e2]
      _ = s.take j1 ++ ((s.drop j1).take j2 ++ 91 :: (rest3.take j4 ++ 93 :: rest5)) := by
          rw [← e3]
      _ = _ := by simp
  · intro hnil
    have := congrArg List.length hnil
    rw [List.length_take] at this
    simp only [List.length_nil] at this
    omega
  · intro hnil
    have := congrArg List.length hnil
    rw [List.length_take] at this
    simp only [List.length_nil] at this
    omega

theorem FindSubmatch_nil (items : List Item) :
    ∀ s : List Nat, (∀ pre suf, s = pre ++ suf → matchHere items suf = none) →
      FindSubmatch items s = [] := by
  intro s
  induction s with
  | nil =>
    intro h
    rw [FindSubmatch, h [] [] rfl]
  | cons b rest ih =>
    intro h
    rw [FindSubmatch, h [] (b :: rest) rfl]
    exact ih (fun pre suf e => h (b :: pre) suf (by rw [e]; rfl))

theorem verifyFrame_serial_short (crc16Sum : List Nat → Nat) (fType : Nat) (data : List Nat)
    (b1 : Nat) (rest cs : List Nat) :
    verifyFrame crc16Sum fType false none data ⟨b1 :: rest, 1 :: cs⟩
      = if crc16Sum data % 65536 ≠ Uint16 [b1, 0]
        then (.error .ErrChecksumMismatch, ⟨rest, cs⟩)
        else (buildFrame fType data, ⟨rest, cs⟩) := by
  have hd : Reader.delivered ⟨b1 :: rest, 1 :: cs⟩ 2 = 1 := by
    simp only [Reader.delivered, List.length_cons]
    omega
  simp [verifyFrame, Reader.Read, hd, copyAt]

/-! ## C1: round trip in TCP mode -/

/-- C1, as amended: for every format and arguments for which rendering
`format+"\r"` gives the rendered text `sprintf format params` followed by the
terminator (`hfmt`), and whose rendered text holds no carriage return (`hcr`),
what `writeCtrlFrame` writes in TCP mode (without error, on a writer that
accepts everything) is read back by `readFrameOfType` with leading type byte
`c` in TCP mode as the `cmdFrame` of the rendered text, with nothing left
unread. -/
theorem writeCtrlFrame_readFrameOfType_tcp {P : Type} (sprintf : List Nat → P → List Nat)
    (crc16Sum : List Nat → Nat) (format : List Nat) (params : P) (chunks : List Nat)
    (hfmt : sprintf (format ++ [13]) params = sprintf format params ++ [13])
    (hcr : 13 ∉ sprintf format params) :
    (writeCtrlFrame sprintf crc16Sum true ⟨[], none⟩ format params).1 = none ∧
    readFrameOfType crc16Sum 99
        ⟨(writeCtrlFrame sprintf crc16Sum true ⟨[], none⟩ format params).2.out, chunks⟩ true
      = (.ok (.cmd (sprintf format params)), ⟨[], chunks⟩) := by
  rw [writeCtrlFrame_tcp_out sprintf crc16Sum ⟨[], none⟩ format params rfl, hfmt]
  refine ⟨rfl, ?_⟩
  have := readFrameOfType_cmd_tcp crc16Sum (sprintf format params) [] chunks hcr
  simpa using this

/-- C1, witness: the command `"MYCALL"` rendered from a format without verbs. -/
theorem writeCtrlFrame_readFrameOfType_tcp_witness :
    plainSprintf ([77, 89, 67, 65, 76, 76] ++ [13]) ()
      = plainSprintf [77, 89, 67, 65, 76, 76] () ++ [13] ∧
    13 ∉ plainSprintf [77, 89, 67, 65, 76, 76] () ∧
    (writeCtrlFrame plainSprintf byteSum true ⟨[], none⟩ [77, 89, 67, 65, 76, 76] ()).1 = none ∧
    readFrameOfType byteSum 99
        ⟨(writeCtrlFrame plainSprintf byteSum true ⟨[], none⟩ [77, 89, 67, 65, 76, 76] ()).2.out,
          []⟩ true
      = (.ok (.cmd (plainSprintf [77, 89, 67, 65, 76, 76] ())), ⟨[], []⟩) :=
  ⟨rfl, by decide,
    writeCtrlFrame_readFrameOfType_tcp plainSprintf byteSum [77, 89, 67, 65, 76, 76] () []
      rfl (by decide)⟩

/-- C1 as stated fails in two ways. The text `"A\rB"` holds a carriage
return: it is written as `"A\rB\r"` and read back as the `cmdFrame` `"A"`, with
`"B\r"` left in the stream. The format `"A%"` without arguments renders as
`"A%!(NOVERB)"`, but the terminator is appended to the format before rendering:
what is written is `"A%!\r(MISSING)"`, read back as the `cmdFrame` `"A%!"`. -/
theorem writeCtrlFrame_readFrameOfType_tcp_counterexample :
    ((writeCtrlFrame plainSprintf byteSum true ⟨[], none⟩ [65, 13, 66] ()).2.out
        = [65, 13, 66, 13] ∧
      readFrameOfType byteSum 99
          ⟨(writeCtrlFrame plainSprintf byteSum true ⟨[], none⟩ [65, 13, 66] ()).2.out, []⟩ true
        = (.ok (.cmd [65]), ⟨[66, 13], []⟩) ∧
      (readFrameOfType byteSum 99
          ⟨(writeCtrlFrame plainSprintf byteSum true ⟨[], none⟩ [65, 13, 66] ()).2.out, []⟩ true).1
        ≠ .ok (.cmd (plainSprintf [65, 13, 66] ()))) ∧
    (noArgSprintf [65, 37] () = [65, 37, 33, 40, 78, 79, 86, 69, 82, 66, 41] ∧
      13 ∉ noArgSprintf [65, 37] () ∧
      (writeCtrlFrame noArgSprintf byteSum true ⟨[], none⟩ [65, 37] ()).2.out
        = [65, 37, 33, 13, 40, 77, 73, 83, 83, 73, 78, 71, 41] ∧
      readFrameOfType byteSum 99
          ⟨(writeCtrlFrame noArgSprintf byteSum true ⟨[], none⟩ [65, 37] ()).2.out, []⟩ true
        = (.ok (.cmd [65, 37, 33]), ⟨[40, 77, 73, 83, 83, 73, 78, 71, 41], []⟩) ∧
      (readFrameOfType byteSum 99
          ⟨(writeCtrlFrame noArgSprintf byteSum true ⟨[], none⟩ [65, 37] ()).2.out, []⟩ true).1
        ≠ .ok (.cmd (noArgSprintf [65, 37] ()))) := by
  constructor
  · have hw : (writeCtrlFrame plainSprintf byteSum true ⟨[], none⟩ [65, 13, 66] ()).2.out
        = [65, 13, 66, 13] := by decide
    have hr : readFrameOfType byteSum 99 ⟨[65, 13, 66, 13], []⟩ true
        = (.ok (.cmd [65]), ⟨[66, 13], []⟩) :=
      readFrameOfType_cmd_tcp byteSum [65] [66, 13] [] (by decide)
    rw [hw, hr]
    exact ⟨rfl, rfl, by decide⟩
  · have hw : (writeCtrlFrame noArgSprintf byteSum true ⟨[], none⟩ [65, 37] ()).2.out
        = [65, 37, 33, 13, 40, 77, 73, 83, 83, 73, 78, 71, 41] := by decide
    have hr : readFrameOfType byteSum 99
        ⟨[65, 37, 33, 13, 40, 77, 73, 83, 83, 73, 78, 71, 41], []⟩ true
        = (.ok (.cmd [65, 37, 33]), ⟨[40, 77, 73, 83, 83, 73, 78, 71, 41], []⟩) :=
      readFrameOfType_cmd_tcp byteSum [65, 37, 33] [40, 77, 73, 83, 83, 73, 78, 71, 41] []
        (by decide)
    rw [hw, hr]
    exact ⟨by decide, by decide, rfl, rfl, by decide⟩

/-! ## C2: data frame decode in TCP mode -/

/-- C2: in TCP mode, for every 3-byte tag, every payload with
`L = 3 + len(payload) <= 65533` and every trailing `rest`, whatever the sizes of
the partial reads, `readFrameOfType` with leading byte `d` on
`BE16(L) ++ tag ++ payload ++ rest` returns without error the `dFrame` whose
`dataType` is `tag` and whose `data` is `payload`, and leaves exactly `rest`
unread. -/
theorem readFrameOfType_data_tcp (crc16Sum : List Nat → Nat)
    (tag payload rest chunks : List Nat)
    (htag : tag.length = 3) (hL : 3 + payload.length ≤ 65533) :
    (readFrameOfType crc16Sum 100
        ⟨putUint16 (3 + payload.length) ++ tag ++ payload ++ rest, chunks⟩ true).1
      = .ok (.data ⟨tag, payload⟩) ∧
    (readFrameOfType crc16Sum 100
        ⟨putUint16 (3 + payload.length) ++ tag ++ payload ++ rest, chunks⟩ true).2.buf
      = rest := by
  have hblk : (tag ++ payload).length = 3 + payload.length := by
    simp [htag]
  obtain ⟨chunks1, -, heq⟩ := readFrameOfType_data_block crc16Sum (3 + payload.length)
    (tag ++ payload ++ rest) chunks true hL
  have e1 : (tag ++ payload ++ rest).take (3 + payload.length) = tag ++ payload := by
    rw [← hblk, List.take_left]
  have e2 : (tag ++ payload ++ rest).drop (3 + payload.length) = rest := by
    rw [← hblk, List.drop_left]
  have e3 : 3 + payload.length - (tag ++ payload ++ rest).length = 0 := by
    rw [List.length_append, hblk]; omega
  rw [e1, e2, e3, List.replicate_zero, List.append_nil, ← List.append_assoc,
    ← List.append_assoc] at heq
  rw [heq]
  have hb := buildFrame_data (putUint16 (3 + payload.length)) tag payload rfl htag
  refine ⟨?_, ?_⟩ <;>
    simp only [verifyFrame, Bool.not_true, Bool.false_eq_true, if_false, hb]

/-- C2, witness: the tag `"ARQ"` with a two-byte payload, read in chunks of one
and two bytes. -/
theorem readFrameOfType_data_tcp_witness :
    [65, 82, 81].length = 3 ∧ 3 + [1, 2].length ≤ 65533 ∧
    (readFrameOfType byteSum 100
        ⟨putUint16 (3 + [1, 2].length) ++ [65, 82, 81] ++ [1, 2] ++ [9, 9], [1, 2]⟩ true).1
      = .ok (.data ⟨[65, 82, 81], [1, 2]⟩) ∧
    (readFrameOfType byteSum 100
        ⟨putUint16 (3 + [1, 2].length) ++ [65, 82, 81] ++ [1, 2] ++ [9, 9], [1, 2]⟩ true).2.buf
      = [9, 9] :=
  ⟨by decide, by decide,
    readFrameOfType_data_tcp byteSum [65, 82, 81] [1, 2] [9, 9] [1, 2] (by decide) (by decide)⟩

/-! ## C3: command checksum in serial-like mode -/

/-- What the checksum step does when the `Read` of line 88 returns both
checksum bytes: in serial-like mode, for every text without a carriage return,
`readFrameOfType` with leading byte `c` on `text ++ "\r" ++ [b1, b2] ++ rest`
returns `cmdFrame(text)` when the big-endian value of `b1 b2` equals
`crc16Sum(text ++ "\r")`, and `ErrChecksumMismatch` when it differs. -/
theorem readFrameOfType_cmd_serial_full (crc16Sum : List Nat → Nat) (text rest chunks : List Nat)
    (b1 b2 : Nat) (hcr : 13 ∉ text) (hfull : ∀ c ∈ chunks.head?, 2 ≤ c) :
    (Uint16 [b1, b2] = crc16Sum (text ++ [13]) % 65536 →
      readFrameOfType crc16Sum 99 ⟨text ++ [13] ++ [b1, b2] ++ rest, chunks⟩ false
        = (.ok (.cmd text), ⟨rest, chunks.tail⟩)) ∧
    (Uint16 [b1, b2] ≠ crc16Sum (text ++ [13]) % 65536 →
      readFrameOfType crc16Sum 99 ⟨text ++ [13] ++ [b1, b2] ++ rest, chunks⟩ false
        = (.error .ErrChecksumMismatch, ⟨rest, chunks.tail⟩)) := by
  have hs : text ++ [13] ++ [b1, b2] ++ rest = text ++ 13 :: (b1 :: b2 :: rest) := by simp
  rw [hs, readFrameOfType_cmd crc16Sum text _ chunks false hcr,
    verifyFrame_serial crc16Sum 99 _ b1 b2 rest chunks hfull]
  constructor
  · intro heq
    rw [if_neg (by rw [heq]; simp), buildFrame_cmd]
  · intro hne
    rw [if_pos (fun e => hne e.symm)]

/-- C3 fails on the code: line 88 fills `sumBytes` with a single `Read` and does
not look at the number of bytes it returned. On the command `"A\r"` followed by
its own checksum, when that `Read` returns one byte, the second byte of
`sumBytes` stays zero and the second checksum byte stays in the stream: the
valid frame is refused with `ErrChecksumMismatch` unless the low byte of the
checksum is zero. Under `byteSum` the bytes are `41 0D 00 4E` and the result is
`ErrChecksumMismatch` with `4E` left unread. -/
theorem readFrameOfType_cmd_serial_short_read :
    (∀ (crc16Sum : List Nat → Nat) (rest cs : List Nat),
      readFrameOfType crc16Sum 99
          ⟨[65, 13] ++ putUint16 (crc16Sum [65, 13] % 65536) ++ rest, 1 :: cs⟩ false
        = if crc16Sum [65, 13] % 65536 ≠ Uint16 [crc16Sum [65, 13] % 65536 / 256 % 256, 0]
          then (.error .ErrChecksumMismatch, ⟨crc16Sum [65, 13] % 65536 % 256 :: rest, cs⟩)
          else (.ok (.cmd [65]), ⟨crc16Sum [65, 13] % 65536 % 256 :: rest, cs⟩)) ∧
    (putUint16 (byteSum [65, 13] % 65536) = [0, 78] ∧
      Uint16 [0, 78] = byteSum [65, 13] % 65536 ∧
      readFrameOfType byteSum 99 ⟨[65, 13, 0, 78], [1]⟩ false
        = (.error .ErrChecksumMismatch, ⟨[78], []⟩)) := by
  have key : ∀ (crc16Sum : List Nat → Nat) (rest cs : List Nat),
      readFrameOfType crc16Sum 99
          ⟨[65, 13] ++ putUint16 (crc16Sum [65, 13] % 65536) ++ rest, 1 :: cs⟩ false
        = if crc16Sum [65, 13] % 65536 ≠ Uint16 [crc16Sum [65, 13] % 65536 / 256 % 256, 0]
          then (.error .ErrChecksumMismatch, ⟨crc16Sum [65, 13] % 65536 % 256 :: rest, cs⟩)
          else (.ok (.cmd [65]), ⟨crc16Sum [65, 13] % 65536 % 256 :: rest, cs⟩) := by
    intro crc16Sum rest cs
    have h := readFrameOfType_cmd crc16Sum [65]
      (crc16Sum [65, 13] % 65536 / 256 % 256 :: crc16Sum [65, 13] % 65536 % 256 :: rest)
      (1 :: cs) false (by decide)
    have hs : [65, 13] ++ putUint16 (crc16Sum [65, 13] % 65536) ++ rest
        = [65] ++ 13 :: (crc16Sum [65, 13] % 65536 / 256 % 256
            :: crc16Sum [65, 13] % 65536 % 256 :: rest) := by
      simp [putUint16]
    rw [hs, h, verifyFrame_serial_short]
    rfl
  refine ⟨key, by decide, by decide, ?_⟩
  have h := key byteSum [] []
  have hp : putUint16 (byteSum [65, 13] % 65536) = [0, 78] := by decide
  rw [hp] at h
  rw [show ([65, 13] : List Nat) ++ [0, 78] ++ [] = [65, 13, 0, 78] from rfl] at h
  rw [h]
  decide

/-! ## C4: data frame checksum in serial-like mode -/

/-- C4, as amended: in serial-like mode the checksum of a data frame is
computed over the whole block, the 2 length bytes included: for every 3-byte
tag, payload (`L = 3 + len(payload) <= 65533`) and checksum bytes `b1 b2`, on a
reader none of whose `Read` calls is cut to fewer than two bytes,
`readFrameOfType` with leading byte `d` on
`BE16(L) ++ tag ++ payload ++ [b1, b2]` returns the data frame exactly when the
big-endian value of `b1 b2` equals `crc16Sum(BE16(L) ++ tag ++ payload)`, and
`ErrChecksumMismatch` otherwise. -/
theorem readFrameOfType_data_serial (crc16Sum : List Nat → Nat)
    (tag payload chunks : List Nat) (b1 b2 : Nat)
    (htag : tag.length = 3) (hL : 3 + payload.length ≤ 65533)
    (hfull : ∀ c ∈ chunks, 2 ≤ c) :
    ((readFrameOfType crc16Sum 100
          ⟨putUint16 (3 + payload.length) ++ tag ++ payload ++ [b1, b2], chunks⟩ false).1
        = .ok (.data ⟨tag, payload⟩)
      ↔ Uint16 [b1, b2]
          = crc16Sum (putUint16 (3 + payload.length) ++ tag ++ payload) % 65536) ∧
    (Uint16 [b1, b2] ≠ crc16Sum (putUint16 (3 + payload.length) ++ tag ++ payload) % 65536 →
      (readFrameOfType crc16Sum 100
          ⟨putUint16 (3 + payload.length) ++ tag ++ payload ++ [b1, b2], chunks⟩ false).1
        = .error .ErrChecksumMismatch) := by
  rw [readFrameOfType_data_serial_block crc16Sum tag payload chunks b1 b2 htag hL hfull]
  by_cases h : Uint16 [b1, b2]
      = crc16Sum (putUint16 (3 + payload.length) ++ tag ++ payload) % 65536
  · rw [if_neg (fun e => e h.symm)]
    exact ⟨⟨fun _ => h, fun _ => rfl⟩, fun hne => absurd h hne⟩
  · rw [if_pos (fun e => h e.symm)]
    exact ⟨⟨fun e => (by cases e), fun e => absurd e h⟩, fun _ => rfl⟩

/-- C4, witness: the tag `"ARQ"` with payload `[1, 2]`. -/
theorem readFrameOfType_data_serial_witness :
    [65, 82, 81].length = 3 ∧ 3 + [1, 2].length ≤ 65533 ∧ (∀ c ∈ [2, 3], 2 ≤ c) ∧
    (((readFrameOfType byteSum 100
          ⟨putUint16 (3 + [1, 2].length) ++ [65, 82, 81] ++ [1, 2] ++ [0, 236], [2, 3]⟩ false).1
        = .ok (.data ⟨[65, 82, 81], [1, 2]⟩)
      ↔ Uint16 [0, 236]
          = byteSum (putUint16 (3 + [1, 2].length) ++ [65, 82, 81] ++ [1, 2]) % 65536) ∧
    (Uint16 [0, 236] ≠ byteSum (putUint16 (3 + [1, 2].length) ++ [65, 82, 81] ++ [1, 2]) % 65536 →
      (readFrameOfType byteSum 100
          ⟨putUint16 (3 + [1, 2].length) ++ [65, 82, 81] ++ [1, 2] ++ [0, 236], [2, 3]⟩ false).1
        = .error .ErrChecksumMismatch)) :=
  ⟨by decide, by decide, by decide,
    readFrameOfType_data_serial byteSum [65, 82, 81] [1, 2] [2, 3] 0 236 (by decide)
      (by decide) (by decide)⟩

/-- C4 as stated fails: under the checksum `byteSum`, the frame `"ARQ"` with an
empty payload followed by the checksum of `tag ++ payload` (228) is refused with
`ErrChecksumMismatch`, and followed by 231, which is not the checksum of
`tag ++ payload`, it is accepted. -/
theorem readFrameOfType_data_serial_counterexample :
    Uint16 [0, 228] = byteSum ([65, 82, 81] ++ []) % 65536 ∧
    (readFrameOfType byteSum 100
        ⟨putUint16 (3 + ([] : List Nat).length) ++ [65, 82, 81] ++ [] ++ [0, 228], []⟩ false).1
      = .error .ErrChecksumMismatch ∧
    Uint16 [0, 231] ≠ byteSum ([65, 82, 81] ++ []) % 65536 ∧
    (readFrameOfType byteSum 100
        ⟨putUint16 (3 + ([] : List Nat).length) ++ [65, 82, 81] ++ [] ++ [0, 231], []⟩ false).1
      = .ok (.data ⟨[65, 82, 81], []⟩) := by
  refine ⟨by decide, ?_, by decide, ?_⟩
  · rw [readFrameOfType_data_serial_block byteSum [65, 82, 81] [] [] 0 228 rfl (by decide)
      (by simp)]
    decide
  · rw [readFrameOfType_data_serial_block byteSum [65, 82, 81] [] [] 0 231 rfl (by decide)
      (by simp)]
    decide

/-! ## C5: data block cut short by the end of the stream -/

/-- C5 fails on the code: on the stream `00 05 41 52` (declared length 5, so a
block of 7 bytes, of which 4 are there) the loop's end-of-file error is kept in
the branch-local `err` and dropped. In TCP mode `readFrameOfType` returns the
data frame `{dataType: "AR\x00", data: [0, 0]}` built from the partly read block
and the zero bytes of the fresh slice; in serial-like mode it returns that frame
or `ErrChecksumMismatch`. In neither mode does it return the end-of-file
error. -/
theorem readFrameOfType_data_truncated :
    (∀ (crc16Sum : List Nat → Nat) (chunks : List Nat),
      (readFrameOfType crc16Sum 100 ⟨[0, 5, 65, 82], chunks⟩ true).1
        = .ok (.data ⟨[65, 82, 0], [0, 0]⟩)) ∧
    (∀ (crc16Sum : List Nat → Nat) (chunks : List Nat),
      (readFrameOfType crc16Sum 100 ⟨[0, 5, 65, 82], chunks⟩ false).1
        = if crc16Sum [0, 5, 65, 82, 0, 0, 0] % 65536 ≠ 0
          then .error .ErrChecksumMismatch
          else .ok (.data ⟨[65, 82, 0], [0, 0]⟩)) := by
  constructor
  · intro crc16Sum chunks
    obtain ⟨chunks1, -, heq⟩ := readFrameOfType_data_block crc16Sum 5 [65, 82] chunks true
      (by decide)
    have hp : putUint16 5 ++ [65, 82] = [0, 5, 65, 82] := by decide
    have hpt : putUint16 5 ++ List.take 5 [65, 82] ++ List.replicate (5 - [65, 82].length) 0
        = [0, 5, 65, 82, 0, 0, 0] := by decide
    rw [hp] at heq
    rw [heq, hpt]
    simp [verifyFrame, buildFrame]
  · intro crc16Sum chunks
    obtain ⟨chunks1, -, heq⟩ := readFrameOfType_data_block crc16Sum 5 [65, 82] chunks false
      (by decide)
    have hp : putUint16 5 ++ [65, 82] = [0, 5, 65, 82] := by decide
    rw [hp] at heq
    rw [heq]
    have hd : List.drop 5 [65, 82] = [] := by decide
    have ht : [0, 5, 65, 82] ++ List.replicate (5 - [65, 82].length) 0
        = [0, 5, 65, 82, 0, 0, 0] := by decide
    have hpt : putUint16 5 ++ List.take 5 [65, 82] ++ List.replicate (5 - [65, 82].length) 0
        = [0, 5, 65, 82, 0, 0, 0] := by decide
    rw [hd, hpt, verifyFrame_serial_eof]
    split <;> simp [buildFrame]

/-! ## C6: checksum cut short by the end of the stream -/

/-- C6 fails on the code: the results of `reader.Read(sumBytes)` are not looked
at, so missing checksum bytes read as zero. With the body complete and nothing
after it (`"A\r"`; the data block `00 03 "ARQ"`) the checksum is compared with
0, with one byte `07` after it (`"A\r" 07`) with `0x0700 = 1792`: the result is
the frame or `ErrChecksumMismatch`, never the end-of-file error. -/
theorem readFrameOfType_checksum_truncated :
    (∀ (crc16Sum : List Nat → Nat) (chunks : List Nat),
      (readFrameOfType crc16Sum 99 ⟨[65, 13], chunks⟩ false).1
        = if crc16Sum [65, 13] % 65536 ≠ 0
          then .error .ErrChecksumMismatch else .ok (.cmd [65])) ∧
    (∀ (crc16Sum : List Nat → Nat) (chunks : List Nat),
      (readFrameOfType crc16Sum 99 ⟨[65, 13, 7], chunks⟩ false).1
        = if crc16Sum [65, 13] % 65536 ≠ 1792
          then .error .ErrChecksumMismatch else .ok (.cmd [65])) ∧
    (∀ (crc16Sum : List Nat → Nat) (chunks : List Nat),
      (readFrameOfType crc16Sum 100 ⟨[0, 3, 65, 82, 81], chunks⟩ false).1
        = if crc16Sum [0, 3, 65, 82, 81] % 65536 ≠ 0
          then .error .ErrChecksumMismatch else .ok (.data ⟨[65, 82, 81], []⟩)) := by
  refine ⟨?_, ?_, ?_⟩
  · intro crc16Sum chunks
    have h := readFrameOfType_cmd crc16Sum [65] [] chunks false (by decide)
    rw [show [65] ++ 13 :: ([] : List Nat) = [65, 13] from rfl] at h
    rw [h, verifyFrame_serial_eof]
    split <;> simp [buildFrame]
  · intro crc16Sum chunks
    have h := readFrameOfType_cmd crc16Sum [65] [7] chunks false (by decide)
    rw [show [65] ++ 13 :: [7] = [65, 13, 7] from rfl,
      show [65] ++ [13] = [65, 13] from rfl] at h
    rw [h, verifyFrame_serial_one]
    have hu : Uint16 [7, 0] = 1792 := by decide
    rw [hu]
    split <;> simp [buildFrame]
  · intro crc16Sum chunks
    obtain ⟨chunks1, -, heq⟩ := readFrameOfType_data_block crc16Sum 3 [65, 82, 81] chunks false
      (by decide)
    have hp : putUint16 3 ++ [65, 82, 81] = [0, 3, 65, 82, 81] := by decide
    have hd : List.drop 3 [65, 82, 81] = [] := by decide
    have hpt : putUint16 3 ++ List.take 3 [65, 82, 81]
        ++ List.replicate (3 - [65, 82, 81].length) 0 = [0, 3, 65, 82, 81] := by decide
    rw [hp] at heq
    rw [heq, hd, hpt, verifyFrame_serial_eof]
    split <;> simp [buildFrame]

/-! ## C7: length arithmetic -/

/-- C7 fails on the code: `length` is a `uint16`, so for the declared lengths
65534 and 65535 the sum `L + 2` wraps to 0 and 1. Whatever follows the length
bytes `FF FE` (for instance 65534 more bytes), in TCP mode `readFrameOfType`
reads nothing and panics on `data[2:5]`; after `FF FF` it reads one byte and
panics. -/
theorem readFrameOfType_length_wraps :
    (∀ (crc16Sum : List Nat → Nat) (rest chunks : List Nat),
      (readFrameOfType crc16Sum 100 ⟨255 :: 254 :: rest, chunks⟩ true).1 = .panic ∧
      (readFrameOfType crc16Sum 100 ⟨255 :: 254 :: rest, chunks⟩ true).2.buf
        = 255 :: 254 :: rest) ∧
    (∀ (crc16Sum : List Nat → Nat) (rest chunks : List Nat),
      (readFrameOfType crc16Sum 100 ⟨255 :: 255 :: rest, chunks⟩ true).1 = .panic ∧
      (readFrameOfType crc16Sum 100 ⟨255 :: 255 :: rest, chunks⟩ true).2.buf
        = 255 :: rest) := by
  constructor
  · intro crc16Sum rest chunks
    obtain ⟨chunks1, -, heq⟩ := readFrameOfType_data crc16Sum (255 :: 254 :: rest) chunks true
      (by simp)
    have hlen : (Uint16 ((255 :: 254 :: rest).take 2) + 2) % 65536 = 0 := by
      simp [Uint16]
    rw [heq, hlen]
    simp [verifyFrame, buildFrame]
  · intro crc16Sum rest chunks
    obtain ⟨chunks1, -, heq⟩ := readFrameOfType_data crc16Sum (255 :: 255 :: rest) chunks true
      (by simp)
    have hlen : (Uint16 ((255 :: 255 :: rest).take 2) + 2) % 65536 = 1 := by
      simp [Uint16]
    rw [heq, hlen]
    simp [verifyFrame, buildFrame]

/-! ## C8: declared length below 3 -/

/-- C8 fails on the code: in TCP mode, for every declared length `L < 3` and
whatever follows the two length bytes, `readFrameOfType` with leading byte `d`
reads a block of `L + 2 < 5` bytes and panics on the slice `data[2:5]`; it
returns no error value. -/
theorem readFrameOfType_short_block (crc16Sum : List Nat → Nat) (L : Nat)
    (tail chunks : List Nat) (hL : L < 3) :
    (readFrameOfType crc16Sum 100 ⟨putUint16 L ++ tail, chunks⟩ true).1 = .panic := by
  obtain ⟨chunks1, -, heq⟩ := readFrameOfType_data_block crc16Sum L tail chunks true
    (by omega)
  rw [heq]
  have hlen : (putUint16 L ++ tail.take L ++ List.replicate (L - tail.length) 0).length < 5 := by
    simp only [List.length_append, List.length_take, List.length_replicate, putUint16,
      List.length_cons, List.length_nil]
    omega
  simp only [verifyFrame, Bool.not_true, Bool.false_eq_true, if_false]
  exact buildFrame_short _ hlen

/-- C8, witness: declared length 2 followed by three bytes. -/
theorem readFrameOfType_short_block_witness :
    2 < 3 ∧ (readFrameOfType byteSum 100 ⟨putUint16 2 ++ [65, 82, 81], []⟩ true).1 = .panic :=
  ⟨by decide, readFrameOfType_short_block byteSum 2 [65, 82, 81] [] (by decide)⟩

/-! ## C9: wire format of the writer -/

/-- C9, as amended: for every format, arguments and checksum function, on a
writer that accepts all bytes, `writeCtrlFrame` returns no error and appends
exactly `p` in TCP mode and exactly `"C:" ++ p ++ BE16(crc16Sum(p))` in
serial-like mode, where `p` is the rendering of `format+"\r"`: the checksum
covers `p` and not the prefix. Whenever `p` is a text `t` followed by the
terminator, these are `t ++ "\r"` and
`"C:" ++ t ++ "\r" ++ BE16(crc16Sum(t ++ "\r"))`. -/
theorem writeCtrlFrame_wire_format {P : Type} (sprintf : List Nat → P → List Nat)
    (crc16Sum : List Nat → Nat) (out0 : List Nat) (format : List Nat) (params : P) :
    writeCtrlFrame sprintf crc16Sum true ⟨out0, none⟩ format params
      = (none, ⟨out0 ++ sprintf (format ++ [13]) params, none⟩) ∧
    writeCtrlFrame sprintf crc16Sum false ⟨out0, none⟩ format params
      = (none, ⟨out0 ++ ([67, 58] ++ sprintf (format ++ [13]) params
                ++ putUint16 (crc16Sum (sprintf (format ++ [13]) params))), none⟩) ∧
    (∀ t : List Nat, sprintf (format ++ [13]) params = t ++ [13] →
      writeCtrlFrame sprintf crc16Sum true ⟨out0, none⟩ format params
        = (none, ⟨out0 ++ (t ++ [13]), none⟩) ∧
      writeCtrlFrame sprintf crc16Sum false ⟨out0, none⟩ format params
        = (none, ⟨out0 ++ ([67, 58] ++ t ++ [13] ++ putUint16 (crc16Sum (t ++ [13]))),
            none⟩)) := by
  have hp : ∀ x : Nat, putUint16 (x % 65536) = putUint16 x := by
    intro x
    simp only [putUint16]
    congr 1
    · omega
    · congr 1
      omega
  have h1 := writeCtrlFrame_tcp_out sprintf crc16Sum ⟨out0, none⟩ format params rfl
  have h2 : writeCtrlFrame sprintf crc16Sum false ⟨out0, none⟩ format params
      = (none, ⟨out0 ++ ([67, 58] ++ sprintf (format ++ [13]) params
                ++ putUint16 (crc16Sum (sprintf (format ++ [13]) params))), none⟩) := by
    rw [writeCtrlFrame_serial_out, hp]
    simp
  refine ⟨h1, h2, ?_⟩
  intro t ht
  rw [h1, h2, ht]
  exact ⟨rfl, by simp⟩

/-- C9, witness: the command `"A"`, whose rendering with the terminator is
`"A\r"`. -/
theorem writeCtrlFrame_wire_format_witness :
    plainSprintf ([65] ++ [13]) () = [65] ++ [13] ∧
    writeCtrlFrame plainSprintf byteSum true ⟨[], none⟩ [65] ()
      = (none, ⟨[] ++ ([65] ++ [13]), none⟩) ∧
    writeCtrlFrame plainSprintf byteSum false ⟨[], none⟩ [65] ()
      = (none, ⟨[] ++ ([67, 58] ++ [65] ++ [13] ++ putUint16 (byteSum ([65] ++ [13]))),
          none⟩) :=
  ⟨rfl, (writeCtrlFrame_wire_format plainSprintf byteSum [] [65] ()).2.2 [65] rfl⟩

/-- C9 as stated fails on a format whose rendering changes when the terminator
is appended to it: `"A%"` without arguments renders as `"A%!(NOVERB)"`, and
`writeCtrlFrame` writes `"A%!\r(MISSING)"` in TCP mode and
`"C:A%!\r(MISSING)"` with its checksum in serial-like mode, where the
terminator is not the last byte of the text. -/
theorem writeCtrlFrame_wire_format_counterexample :
    noArgSprintf [65, 37] () = [65, 37, 33, 40, 78, 79, 86, 69, 82, 66, 41] ∧
    (writeCtrlFrame noArgSprintf byteSum true ⟨[], none⟩ [65, 37] ()).2.out
      = [65, 37, 33, 13, 40, 77, 73, 83, 83, 73, 78, 71, 41] ∧
    (writeCtrlFrame noArgSprintf byteSum true ⟨[], none⟩ [65, 37] ()).2.out
      ≠ noArgSprintf [65, 37] () ++ [13] ∧
    (writeCtrlFrame noArgSprintf byteSum false ⟨[], none⟩ [65, 37] ()).2.out
      = [67, 58, 65, 37, 33, 13, 40, 77, 73, 83, 83, 73, 78, 71, 41, 2, 255] ∧
    (writeCtrlFrame noArgSprintf byteSum false ⟨[], none⟩ [65, 37] ()).2.out
      ≠ [67, 58] ++ noArgSprintf [65, 37] () ++ [13]
          ++ putUint16 (byteSum (noArgSprintf [65, 37] () ++ [13])) := by
  decide

/-! ## C10: the escape marker -/

/-- C10: in serial-like mode, for every real type byte `t`, separator byte `s`
and remaining stream `r`, `readFrameOfType` with leading byte `*` on
`[t, s] ++ r` returns the same result and leaves the same reader as
`readFrameOfType` with leading byte `t` on `r`; with `t = 'c'` this is the same
`cmdFrame` as for the leading byte `c` on `<text>\r<checksum>`. -/
theorem readFrameOfType_escape (crc16Sum : List Nat → Nat) (t s : Nat)
    (r chunks : List Nat) :
    readFrameOfType crc16Sum 42 ⟨[t, s] ++ r, chunks⟩ false
      = readFrameOfType crc16Sum t ⟨r, chunks⟩ false :=
  readFrameOfType_escape_step crc16Sum t s r chunks false

/-! ## C11: unrecognized frame type -/

/-- C11: for every leading byte other than `*`, `c` and `d`, every reader and
either transport mode, `readFrameOfType` returns the "Unexpected frame type"
error built from that byte and no frame, and leaves the reader as it was: no
byte is consumed. -/
theorem readFrameOfType_unexpected (crc16Sum : List Nat → Nat) (fType : Nat) (reader : Reader)
    (isTCP : Bool) (h1 : fType ≠ 42) (h2 : fType ≠ 99) (h3 : fType ≠ 100) :
    readFrameOfType crc16Sum fType reader isTCP
      = (.error (.unexpectedFrameType fType), reader) := by
  rw [readFrameOfType, if_neg h1, if_neg h2, if_neg h3]

/-- C11, witness: the leading byte `x` in serial-like mode. -/
theorem readFrameOfType_unexpected_witness :
    (120 : Nat) ≠ 42 ∧ (120 : Nat) ≠ 99 ∧ (120 : Nat) ≠ 100 ∧
    readFrameOfType byteSum 120 ⟨[65, 13, 0, 78], [1]⟩ false
      = (.error (.unexpectedFrameType 120), ⟨[65, 13, 0, 78], [1]⟩) :=
  ⟨by decide, by decide, by decide,
    readFrameOfType_unexpected byteSum 120 ⟨[65, 13, 0, 78], [1]⟩ false
      (by decide) (by decide) (by decide)⟩

/-! ## C12: command without terminator -/

/-- C12: for every stream that holds no carriage return, in either transport
mode and whatever the partial reads, `readFrameOfType` with leading byte `c`
returns an error (the end-of-file error of the stream) and no frame; the stream
has been read to its end. -/
theorem readFrameOfType_unterminated (crc16Sum : List Nat → Nat) (stream chunks : List Nat)
    (isTCP : Bool) (h : 13 ∉ stream) :
    readFrameOfType crc16Sum 99 ⟨stream, chunks⟩ isTCP = (.error .eof, ⟨[], chunks⟩) := by
  rw [readFrameOfType]
  simp [Reader.ReadBytes, splitDelim_none 13 stream h, verifyFrame]

/-- C12, witness: the stream `"MYC"` in TCP mode. -/
theorem readFrameOfType_unterminated_witness :
    13 ∉ [77, 89, 67] ∧
    readFrameOfType byteSum 99 ⟨[77, 89, 67], []⟩ true = (.error .eof, ⟨[], []⟩) :=
  ⟨by decide, readFrameOfType_unterminated byteSum [77, 89, 67] [] true (by decide)⟩

/-! ## C17: identity decode of a frame of another type -/

/-- C17: for every `dFrame` whose `dataType` is not `"IDF"`, whatever its
payload, `parseIDFrame` returns the "Unexpected frame type" error with empty
callsign and gridsquare. -/
theorem parseIDFrame_wrong_type (df : dFrame) (h : df.dataType ≠ tagIDF) :
    parseIDFrame df = (([], []), some .idUnexpectedFrameType) := by
  simp [parseIDFrame, dFrame.IDFrame, h]

/-- C17, witness: an `"ARQ"` frame whose payload `"LA:[JP]"` matches the
identification pattern. -/
theorem parseIDFrame_wrong_type_witness :
    (⟨tagARQ, [76, 65, 58, 91, 74, 80, 93]⟩ : dFrame).dataType ≠ tagIDF ∧
    parseIDFrame ⟨tagARQ, [76, 65, 58, 91, 74, 80, 93]⟩
      = (([], []), some .idUnexpectedFrameType) :=
  ⟨by decide, parseIDFrame_wrong_type ⟨tagARQ, [76, 65, 58, 91, 74, 80, 93]⟩ (by decide)⟩

/-! ## C18: type dispatch -/

/-- C18: each of `ARQFrame`, `FECFrame`, `ErrFrame` and `IDFrame` is true
exactly when the frame's `dataType` equals its own tag; for each of the four
tags, whatever the payload, its own predicate is true and the other three are
false; and for every `dFrame` at most one of the four predicates is true. -/
theorem dFrame_type_dispatch :
    (∀ f : dFrame, (f.ARQFrame = true ↔ f.dataType = tagARQ) ∧
      (f.FECFrame = true ↔ f.dataType = tagFEC) ∧
      (f.ErrFrame = true ↔ f.dataType = tagERR) ∧
      (f.IDFrame = true ↔ f.dataType = tagIDF)) ∧
    (∀ data : List Nat,
      ((⟨tagARQ, data⟩ : dFrame).ARQFrame = true ∧ (⟨tagARQ, data⟩ : dFrame).FECFrame = false ∧
        (⟨tagARQ, data⟩ : dFrame).ErrFrame = false ∧ (⟨tagARQ, data⟩ : dFrame).IDFrame = false) ∧
      ((⟨tagFEC, data⟩ : dFrame).ARQFrame = false ∧ (⟨tagFEC, data⟩ : dFrame).FECFrame = true ∧
        (⟨tagFEC, data⟩ : dFrame).ErrFrame = false ∧ (⟨tagFEC, data⟩ : dFrame).IDFrame = false) ∧
      ((⟨tagERR, data⟩ : dFrame).ARQFrame = false ∧ (⟨tagERR, data⟩ : dFrame).FECFrame = false ∧
        (⟨tagERR, data⟩ : dFrame).ErrFrame = true ∧ (⟨tagERR, data⟩ : dFrame).IDFrame = false) ∧
      ((⟨tagIDF, data⟩ : dFrame).ARQFrame = false ∧ (⟨tagIDF, data⟩ : dFrame).FECFrame = false ∧
        (⟨tagIDF, data⟩ : dFrame).ErrFrame = false ∧ (⟨tagIDF, data⟩ : dFrame).IDFrame = true)) ∧
    (∀ f : dFrame,
      f.ARQFrame.toNat + f.FECFrame.toNat + f.ErrFrame.toNat + f.IDFrame.toNat ≤ 1) := by
  refine ⟨?_, ?_, ?_⟩
  · intro f
    simp [dFrame.ARQFrame, dFrame.FECFrame, dFrame.ErrFrame, dFrame.IDFrame]
  · intro data
    simp only [dFrame.ARQFrame, dFrame.FECFrame, dFrame.ErrFrame, dFrame.IDFrame]
    decide
  · intro f
    obtain ⟨dt, data⟩ := f
    simp only [dFrame.ARQFrame, dFrame.FECFrame, dFrame.ErrFrame, dFrame.IDFrame]
    by_cases h1 : dt = tagARQ
    · subst h1; decide
    · by_cases h2 : dt = tagFEC
      · subst h2; decide
      · by_cases h3 : dt = tagERR
        · subst h3; decide
        · have e1 : (dt == tagARQ) = false := by simp [h1]
          have e2 : (dt == tagFEC) = false := by simp [h2]
          have e3 : (dt == tagERR) = false := by simp [h3]
          rw [e1, e2, e3]
          cases (dt == tagIDF) <;> decide

/-! ## C14: one mode's reader on the other mode's bytes -/

/-- C14, as amended: for every format and arguments for which rendering
`format+"\r"` gives the rendered text `t` followed by the terminator (`hfmt`),
`t` holding no carriage return (`hcr`), read as a command frame (leading type
byte `c`): on the bytes
`writeCtrlFrame` emits in serial-like mode, `readFrameOfType` in TCP mode
returns no error but the `cmdFrame` `"C:" ++ t`, and leaves the two checksum
bytes unread; on the bytes `writeCtrlFrame` emits in TCP mode, `readFrameOfType`
in serial-like mode returns an error whenever `crc16Sum(t ++ "\r")` is not
zero. -/
theorem readFrameOfType_cross_mode {P : Type} (sprintf : List Nat → P → List Nat)
    (crc16Sum : List Nat → Nat) (format : List Nat) (params : P) (chunks : List Nat)
    (hfmt : sprintf (format ++ [13]) params = sprintf format params ++ [13])
    (hcr : 13 ∉ sprintf format params) :
    readFrameOfType crc16Sum 99
        ⟨(writeCtrlFrame sprintf crc16Sum false ⟨[], none⟩ format params).2.out, chunks⟩ true
      = (.ok (.cmd ([67, 58] ++ sprintf format params)),
          ⟨putUint16 (crc16Sum (sprintf format params ++ [13]) % 65536), chunks⟩) ∧
    (crc16Sum (sprintf format params ++ [13]) % 65536 ≠ 0 →
      ∃ e, (readFrameOfType crc16Sum 99
        ⟨(writeCtrlFrame sprintf crc16Sum true ⟨[], none⟩ format params).2.out, chunks⟩ false).1
          = .error e) := by
  constructor
  · rw [writeCtrlFrame_serial_out, hfmt]
    have hcr2 : 13 ∉ [67, 58] ++ sprintf format params := by
      simp only [List.mem_append, not_or]
      exact ⟨by decide, hcr⟩
    have := readFrameOfType_cmd_tcp crc16Sum ([67, 58] ++ sprintf format params)
      (putUint16 (crc16Sum (sprintf format params ++ [13]) % 65536)) chunks hcr2
    simpa using this
  · intro hne
    rw [writeCtrlFrame_tcp_out sprintf crc16Sum ⟨[], none⟩ format params rfl, hfmt]
    refine ⟨.ErrChecksumMismatch, ?_⟩
    have h := readFrameOfType_cmd crc16Sum (sprintf format params) [] chunks false hcr
    simp only [List.nil_append]
    rw [show sprintf format params ++ [13] = sprintf format params ++ 13 :: [] from rfl] at *
    rw [h, verifyFrame_serial_eof, if_pos hne]

/-- C14, witness: the command `"A"`, whose checksum under `byteSum` is 78. -/
theorem readFrameOfType_cross_mode_witness :
    plainSprintf ([65] ++ [13]) () = plainSprintf [65] () ++ [13] ∧
    13 ∉ plainSprintf [65] () ∧
    (readFrameOfType byteSum 99
        ⟨(writeCtrlFrame plainSprintf byteSum false ⟨[], none⟩ [65] ()).2.out, []⟩ true
      = (.ok (.cmd ([67, 58] ++ plainSprintf [65] ())),
          ⟨putUint16 (byteSum (plainSprintf [65] () ++ [13]) % 65536), []⟩) ∧
    (byteSum (plainSprintf [65] () ++ [13]) % 65536 ≠ 0 →
      ∃ e, (readFrameOfType byteSum 99
        ⟨(writeCtrlFrame plainSprintf byteSum true ⟨[], none⟩ [65] ()).2.out, []⟩ false).1
          = .error e)) :=
  ⟨rfl, by decide, readFrameOfType_cross_mode plainSprintf byteSum [65] () [] rfl (by decide)⟩

/-- C14 as stated fails: the serial-like encoding of the command `"A"` is
`"C:A\r"` followed by the checksum `00 4E`, and `readFrameOfType` in TCP mode
reads it as the `cmdFrame` `"C:A"` without any error. -/
theorem readFrameOfType_cross_mode_counterexample :
    (writeCtrlFrame plainSprintf byteSum false ⟨[], none⟩ [65] ()).2.out
      = [67, 58, 65, 13, 0, 78] ∧
    readFrameOfType byteSum 99
        ⟨(writeCtrlFrame plainSprintf byteSum false ⟨[], none⟩ [65] ()).2.out, []⟩ true
      = (.ok (.cmd [67, 58, 65]), ⟨[0, 78], []⟩) ∧
    ¬ ∃ e, (readFrameOfType byteSum 99
        ⟨(writeCtrlFrame plainSprintf byteSum false ⟨[], none⟩ [65] ()).2.out, []⟩ true).1
          = .error e := by
  have hw : (writeCtrlFrame plainSprintf byteSum false ⟨[], none⟩ [65] ()).2.out
      = [67, 58, 65, 13, 0, 78] := by
    rw [writeCtrlFrame_serial_out]; decide
  have hr : readFrameOfType byteSum 99 ⟨[67, 58, 65, 13, 0, 78], []⟩ true
      = (.ok (.cmd [67, 58, 65]), ⟨[0, 78], []⟩) :=
    readFrameOfType_cmd_tcp byteSum [67, 58, 65] [0, 78] [] (by decide)
  rw [hw, hr]
  refine ⟨rfl, rfl, ?_⟩
  rintro ⟨e, he⟩
  cases he

/-! ## C13: one flipped bit -/

/-- C13, as amended: for every checksum function that changes whenever one bit
of its input is flipped (`hcrc`, as a CRC does), in serial-like mode, on a
reader none of whose `Read` calls is cut to fewer than two bytes: when one bit
of a command's text is flipped and the flipped text still holds no carriage
return, `readFrameOfType` with leading byte `c` on the flipped text, the
terminator and the checksum of the original returns `ErrChecksumMismatch`; and
when one bit of a data frame's body (tag and payload, after the length bytes) is
flipped, `readFrameOfType` with leading byte `d` on the length bytes, the flipped
body and the checksum of the original returns `ErrChecksumMismatch`. -/
theorem readFrameOfType_flip_detected (crc16Sum : List Nat → Nat)
    (text body rest chunks : List Nat) (i j k : Nat)
    (hcrc : ∀ (a : List Nat) (n m : Nat), n < a.length → m < 8 →
      crc16Sum (flipBitAt a n m) % 65536 ≠ crc16Sum a % 65536)
    (hk : k < 8) (hi : i < text.length) (hcr : 13 ∉ flipBitAt text i k)
    (hj : j < body.length) (hL : body.length ≤ 65533) (hfull : ∀ c ∈ chunks, 2 ≤ c) :
    readFrameOfType crc16Sum 99
        ⟨flipBitAt text i k ++ [13] ++ putUint16 (crc16Sum (text ++ [13]) % 65536) ++ rest,
          chunks⟩ false
      = (.error .ErrChecksumMismatch, ⟨rest, chunks.tail⟩) ∧
    (readFrameOfType crc16Sum 100
        ⟨putUint16 body.length ++ flipBitAt body j k
          ++ putUint16 (crc16Sum (putUint16 body.length ++ body) % 65536), chunks⟩ false).1
      = .error .ErrChecksumMismatch := by
  constructor
  · exact readFrameOfType_cmd_flipped crc16Sum text rest chunks i k
      (hcrc (text ++ [13]) i k (by rw [List.length_append]; omega) hk) hi hcr
      (fun c hc => hfull c (List.mem_of_mem_head? hc))
  · exact readFrameOfType_data_flipped crc16Sum body chunks j k
      (hcrc (putUint16 body.length ++ body) (2 + j) k
        (by rw [List.length_append]; simp [putUint16]; omega) hk) hL hfull

/-- C13, witness: the checksum `byteSum`, the command `"A"` and the data body
`"ARQ" 07`, each with its lowest bit of one byte flipped. -/
theorem readFrameOfType_flip_detected_witness :
    (∀ (a : List Nat) (n m : Nat), n < a.length → m < 8 →
      byteSum (flipBitAt a n m) % 65536 ≠ byteSum a % 65536) ∧
    0 < 8 ∧ 0 < [65].length ∧ 13 ∉ flipBitAt [65] 0 0 ∧
    3 < [65, 82, 81, 7].length ∧ [65, 82, 81, 7].length ≤ 65533 ∧
    (∀ c ∈ ([] : List Nat), 2 ≤ c) ∧
    (readFrameOfType byteSum 99
        ⟨flipBitAt [65] 0 0 ++ [13] ++ putUint16 (byteSum ([65] ++ [13]) % 65536) ++ [9],
          []⟩ false
      = (.error .ErrChecksumMismatch, ⟨[9], ([] : List Nat).tail⟩) ∧
    (readFrameOfType byteSum 100
        ⟨putUint16 [65, 82, 81, 7].length ++ flipBitAt [65, 82, 81, 7] 3 0
          ++ putUint16 (byteSum (putUint16 [65, 82, 81, 7].length ++ [65, 82, 81, 7]) % 65536),
          []⟩ false).1
      = .error .ErrChecksumMismatch) :=
  ⟨byteSum_flipBitAt, by decide, by decide, by decide, by decide, by decide, by simp,
    readFrameOfType_flip_detected byteSum [65] [65, 82, 81, 7] [9] [] 0 3 0
      byteSum_flipBitAt (by decide) (by decide) (by decide) (by decide) (by decide) (by simp)⟩

/-- C13 as stated fails for a flipped bit outside the checksummed body. The
command `"A"` with its checksum under `byteSum` is read back as a frame; with
bit 0 of the type byte `c` flipped the result is the "Unexpected frame type"
error for `b`, and with bit 0 of the terminator flipped it is the end-of-file
error: neither is `ErrChecksumMismatch`. -/
theorem readFrameOfType_flip_counterexample :
    readFrameOfType byteSum 99 ⟨[65, 13] ++ putUint16 (byteSum [65, 13] % 65536), []⟩ false
      = (.ok (.cmd [65]), ⟨[], []⟩) ∧
    flipBit 99 0 = 98 ∧
    readFrameOfType byteSum (flipBit 99 0)
        ⟨[65, 13] ++ putUint16 (byteSum [65, 13] % 65536), []⟩ false
      = (.error (.unexpectedFrameType 98), ⟨[65, 13, 0, 78], []⟩) ∧
    flipBitAt [65, 13] 1 0 = [65, 12] ∧
    readFrameOfType byteSum 99
        ⟨flipBitAt [65, 13] 1 0 ++ putUint16 (byteSum [65, 13] % 65536), []⟩ false
      = (.error .eof, ⟨[], []⟩) := by
  have hp : putUint16 (byteSum [65, 13] % 65536) = [0, 78] := by decide
  have hf : flipBit 99 0 = 98 := by decide
  have hfa : flipBitAt [65, 13] 1 0 = [65, 12] := by decide
  rw [hp, hf, hfa]
  refine ⟨?_, rfl, ?_, rfl, ?_⟩
  · have h := readFrameOfType_cmd byteSum [65] [0, 78] [] false (by decide)
    have hv := verifyFrame_serial byteSum 99 ([65] ++ [13]) 0 78 [] [] (by simp)
    rw [show [65] ++ 13 :: [0, 78] = [65, 13] ++ [0, 78] from rfl] at h
    rw [h, hv]
    decide
  · rw [readFrameOfType, if_neg (by decide), if_neg (by decide), if_neg (by decide)]
    rfl
  · rw [readFrameOfType]
    simp [Reader.ReadBytes, splitDelim_none 13 [65, 12, 0, 78] (by decide), verifyFrame]

/-! ## C19: termination of the reader -/

/-- C19: for every leading byte, every finite stream and either mode,
`readFrameOfType` terminates: run with at most as many calls of itself as the
stream has bytes and at most 65535 rounds of the data-block loop, it returns
its result. A stream of `n` nested escape markers in front of `[t, s] ++ r` is
unwound to the call with type byte `t` on `r`, a strictly shorter stream. The
loop that fills a block of `length` bytes from position `read` ends within
`length - read` rounds, and it ends without error when the stream holds the
whole block and with the end-of-file error when it does not. -/
theorem readFrameOfType_terminates :
    (∀ (crc16Sum : List Nat → Nat) (fType : Nat) (reader : Reader) (isTCP : Bool),
      readFrameOfTypeFuel crc16Sum 65535 isTCP reader.buf.length fType reader
        = some (readFrameOfType crc16Sum fType reader isTCP)) ∧
    (∀ (crc16Sum : List Nat → Nat) (n t s : Nat) (r chunks : List Nat) (isTCP : Bool),
      readFrameOfType crc16Sum 42 ⟨nestedEscape s (t :: s :: r) n, chunks⟩ isTCP
        = readFrameOfType crc16Sum t ⟨r, chunks⟩ isTCP ∧
      r.length < (nestedEscape s (t :: s :: r) n).length) ∧
    (∀ (length read : Nat) (data : List Nat) (reader : Reader),
      readLoopFuel (length - read) length read none data reader
        = some (readLoop length read none data reader)) ∧
    (∀ (length : Nat) (reader : Reader),
      (readLoop length 0 none (List.replicate length 0) reader).1.1
        = if reader.buf.length < length then some .eof else none) := by
  refine ⟨?_, ?_, ?_, ?_⟩
  · intro crc16Sum fType reader isTCP
    exact readFrameOfTypeFuel_enough crc16Sum 65535 isTCP (Nat.le_refl _) reader.buf.length
      fType reader (Nat.le_refl _)
  · intro crc16Sum n t s r chunks isTCP
    refine ⟨readFrameOfType_nested crc16Sum t s r chunks isTCP n, ?_⟩
    rw [length_nestedEscape]
    simp only [List.length_cons]
    omega
  · intro length read data reader
    exact readLoopFuel_enough (length - read) length read none data reader
      (fun _ => Nat.le_refl _)
  · intro length reader
    obtain ⟨chunks1, -, heq⟩ := readLoop_spec length length 0 [] (List.replicate length 0)
      reader rfl (List.length_replicate _ _) (Nat.zero_add _)
    rw [List.nil_append] at heq
    rw [heq]

/-! ## C15: identity decode of a well-formed payload -/

/-- C15: for every non-empty callsign `c` and non-empty locator `g` made of word
characters `[0-9A-Za-z_]`, every separator `sep` made of colons and the
whitespace of the class `\s` (possibly empty), every `pfx` without word
characters and every `suffix`, `parseIDFrame` on an `"IDF"` frame with payload
`pfx ++ c ++ sep ++ "[" ++ g ++ "]" ++ suffix` returns `(c, g)` and no error. -/
theorem parseIDFrame_wellformed (pfx c sep g suffix : List Nat)
    (hc : c ≠ []) (hg : g ≠ [])
    (hcw : ∀ b ∈ c, isWord b = true) (hgw : ∀ b ∈ g, isWord b = true)
    (hsep : ∀ b ∈ sep, isSep b = true) (hpfx : ∀ b ∈ pfx, isWord b = false) :
    parseIDFrame ⟨tagIDF, pfx ++ c ++ sep ++ [91] ++ g ++ [93] ++ suffix⟩ = ((c, g), none) := by
  have hs : pfx ++ c ++ sep ++ [91] ++ g ++ [93] ++ suffix
      = pfx ++ (c ++ (sep ++ 91 :: (g ++ 93 :: suffix))) := by simp
  have hne : c ++ (sep ++ 91 :: (g ++ 93 :: suffix)) ≠ [] := by
    cases c with
    | nil => exact absurd rfl hc
    | cons x xs => simp
  have hfind := FindSubmatch_of_match reID _ suffix [c, g] hne
    (matchHere_reID c sep g suffix hc hg hcw hsep hgw)
  have hid : (⟨tagIDF, pfx ++ c ++ sep ++ [91] ++ g ++ [93] ++ suffix⟩ : dFrame).IDFrame
      = true := by
    simp [dFrame.IDFrame]
  rw [parseIDFrame, hid]
  simp only [hs, FindSubmatch_skip pfx _ hpfx, hfind]
  simp

/-- C15, witness: the payload `"LA5NTA:[JP20QE] "` decodes to `"LA5NTA"` and
`"JP20QE"`. -/
theorem parseIDFrame_wellformed_witness :
    [76, 65, 53, 78, 84, 65] ≠ [] ∧ [74, 80, 50, 48, 81, 69] ≠ [] ∧
    (∀ b ∈ [76, 65, 53, 78, 84, 65], isWord b = true) ∧
    (∀ b ∈ [74, 80, 50, 48, 81, 69], isWord b = true) ∧
    (∀ b ∈ [58], isSep b = true) ∧ (∀ b ∈ ([] : List Nat), isWord b = false) ∧
    parseIDFrame ⟨tagIDF, [] ++ [76, 65, 53, 78, 84, 65] ++ [58] ++ [91]
        ++ [74, 80, 50, 48, 81, 69] ++ [93] ++ [32]⟩
      = (([76, 65, 53, 78, 84, 65], [74, 80, 50, 48, 81, 69]), none) :=
  ⟨by decide, by decide, by decide, by decide, by decide, by decide,
    parseIDFrame_wellformed [] [76, 65, 53, 78, 84, 65] [58] [74, 80, 50, 48, 81, 69] [32]
      (by decide) (by decide) (by decide) (by decide) (by decide) (by decide)⟩

/-! ## C16: identity decode of a payload that does not match -/

/-- C16: for every `"IDF"` frame whose payload holds no `[` byte, and more
generally whose payload holds no substring made of a non-empty word, colons and
whitespace, `[`, a non-empty word and `]`, `parseIDFrame` returns the
"Unexpected ID format" error with empty callsign and gridsquare. -/
theorem parseIDFrame_bad_format (df : dFrame) (hid : df.dataType = tagIDF)
    (h : 91 ∉ df.data ∨
      ¬ ∃ pre w1 sp w2 post, df.data = pre ++ w1 ++ sp ++ [91] ++ w2 ++ [93] ++ post ∧
        w1 ≠ [] ∧ (∀ b ∈ w1, isWord b = true) ∧ (∀ b ∈ sp, isSep b = true) ∧ w2 ≠ [] ∧
        (∀ b ∈ w2, isWord b = true)) :
    parseIDFrame df = (([], []), some .unexpectedIDFormat) := by
  have hno : ¬ ∃ pre w1 sp w2 post, df.data = pre ++ w1 ++ sp ++ [91] ++ w2 ++ [93] ++ post ∧
        w1 ≠ [] ∧ (∀ b ∈ w1, isWord b = true) ∧ (∀ b ∈ sp, isSep b = true) ∧ w2 ≠ [] ∧
        (∀ b ∈ w2, isWord b = true) := by
    rcases h with h | h
    · rintro ⟨pre, w1, sp, w2, post, e, -⟩
      apply h
      rw [e]
      simp
    · exact h
  have hfind : FindSubmatch reID df.data = [] := by
    apply FindSubmatch_nil
    intro pre suf e
    cases hm : matchHere reID suf with
    | none => rfl
    | some p =>
      exfalso
      obtain ⟨caps, tail⟩ := p
      obtain ⟨w1, sp, w2, e2, h1, h2, h3, h4, h5⟩ := matchHere_reID_some suf tail caps hm
      apply hno
      refine ⟨pre, w1, sp, w2, tail, ?_, h1, h2, h3, h4, h5⟩
      rw [e, e2]
      simp
  have hidf : df.IDFrame = true := by
    simp [dFrame.IDFrame, hid]
  rw [parseIDFrame, hidf, hfind]
  rfl

/-- C16, witness: the payload `"NOCALL"`. -/
theorem parseIDFrame_bad_format_witness :
    (⟨tagIDF, [78, 79, 67, 65, 76, 76]⟩ : dFrame).dataType = tagIDF ∧
    91 ∉ (⟨tagIDF, [78, 79, 67, 65, 76, 76]⟩ : dFrame).data ∧
    parseIDFrame ⟨tagIDF, [78, 79, 67, 65, 76, 76]⟩ = (([], []), some .unexpectedIDFormat) :=
  ⟨rfl, by decide,
    parseIDFrame_bad_format ⟨tagIDF, [78, 79, 67, 65, 76, 76]⟩ rfl (Or.inl (by decide))⟩

end Ardop
